import Mathlib

/-!
Verification of the l20n compiler/resolver (src/compiler.rs, src/context.rs).

The embedding follows the Rust source directly.  The external `parser` and
`data` modules are not part of the sources; their shapes (the AST node
variants and the runtime data variants) are reconstructed from their uses in
`compiler.rs` and from the specification, as noted on each definition.

Modelling conventions:
- Rust `HashMap` values are modelled as association lists with replace-on-insert
  (`ainsert`) and first-match lookup (`alookup`); a `HashMap` never holds
  duplicate keys, so first-match lookup agrees with it.
- Rust `f64` numbers are modelled as `Int`.  None of the verified claims
  depends on float arithmetic; for `==`/`!=` on `f64`, which Rust guarantees to
  be exact complements, `Int` equality is an adequate stand-in.
- The resolver in the source is not structurally recursive (identifier cycles
  recurse without bound, as the specification acknowledges), so every resolving
  function takes a fuel argument; exhausted fuel yields the `diverge` outcome.
- A Rust panic (the source uses `panic!` and `unreachable!` in the resolver) is
  modelled as the `aborted` outcome, distinct from an error return.
-/

namespace L20n

/-- Binary operators of the parser AST, as consumed by compiler.rs. -/
inductive BinOp where
  | BiAdd | BiSub | BiMul | BiDiv | BiRem
  | BiLt | BiLe | BiGt | BiGe
  | BiAnd | BiOr | BiEq | BiNe
deriving DecidableEq

/-- Unary operators of the parser AST. -/
inductive UnOp where
  | UnAdd | UnSub | UnNot
deriving DecidableEq

/-- Access type of property and attribute expressions. -/
inductive AccessType where
  | Computed | Static
deriving DecidableEq

mutual

/-- Modelled from the spec: parser::Entry. Comment is ignored; Macro carries
parameter expressions and a body; Entity carries a value, a selector-index
chain and attributes, matching the patterns matched in compiler.rs. -/
inductive Entry where
  | Comment (text : String)
  | Macro (id : String) (argNames : List Expr) (body : Expr)
  | Entity (id : String) (value : Value) (indices : List Expr) (attrs : List Attr)

/-- Modelled from the spec: parser::Attr(name, value, selector-index chain). -/
inductive Attr where
  | mk (id : String) (value : Value) (indices : List Expr)

/-- Modelled from the spec: parser::Value. Hash carries the branch mapping, an
optional literal default key and an optional default-selector expression. -/
inductive Value where
  | Str (s : String)
  | ComplexStr (exprs : List Expr)
  | Hash (map : List (String × Value)) (defKey : Option String) (defIndex : Option Expr)

/-- Modelled from the spec: parser::Expr. `OtherExpr` stands for the parser
expression variants outside the set the resolver implements; the resolver of
compiler.rs ends in a catch-all arm that panics on those. -/
inductive Expr where
  | ValExpr (v : Value)
  | NumExpr (n : Int)
  | BinExpr (left : Expr) (op : BinOp) (right : Expr)
  | UnExpr (op : UnOp) (e : Expr)
  | VarExpr (name : String)
  | IdentExpr (id : String)
  | CondExpr (cond : Expr) (cons : Expr) (alt : Expr)
  | CallExpr (callee : Expr) (args : List Expr)
  | PropExpr (parent : Expr) (prop : Expr) (access : AccessType)
  | AttrExpr (parent : Expr) (prop : Expr) (access : AccessType)
  | OtherExpr (tag : String)

end

/-- Modelled from the spec: data::Data, the runtime value model (absence,
boolean, number, string, string-keyed mapping). -/
inductive Data where
  | Null
  | Bool (b : Bool)
  | Num (n : Int)
  | Str (s : String)
  | Map (map : List (String × Data))

/-- ResolveError of compiler.rs. -/
inductive ResolveError where
  | WrongType
  | WrongNumberOfArgs
  | MissingIndex
  | MissingAttr
  | MissingVar (name : String)
  | MissingIdent (id : String)
deriving DecidableEq

/-- ResolveTarget of compiler.rs: the three possible results of a single
resolution step. -/
inductive ResolveTarget where
  | Entry (e : Entry)
  | Value (v : Value)
  | Data (d : Data)

/-- Outcome of a resolver call in the embedding.  `ok`/`err` mirror the Rust
`Result`; `aborted` models a panic; `diverge` models exhausted fuel, standing
for the unbounded recursion the source permits. -/
inductive Res (α : Type) where
  | ok (a : α)
  | err (e : ResolveError)
  | aborted
  | diverge

/-- First-match lookup in an association list, modelling HashMap::get. -/
def alookup {α : Type} : List (String × α) → String → Option α
  | [], _ => none
  | (k, v) :: rest, s => if k = s then some v else alookup rest s

/-- Replace-or-append insertion in an association list, modelling
HashMap::insert. -/
def ainsert {α : Type} : List (String × α) → String → α → List (String × α)
  | [], k, v => [(k, v)]
  | (k2, v2) :: rest, k, v =>
    if k2 = k then (k, v) :: rest else (k2, v2) :: ainsert rest k v

/-- Modelled from the spec: data::Data::get, lookup of a named member; only a
runtime mapping has named members (compiler.rs calls it on locals and on the
caller data). -/
def Data.get : Data → String → Option Data
  | .Map m, name => alookup m name
  | _, _ => none

/-- Compiled environment: identifier to entry, as HashMap<String, Entry>. -/
abbrev Env := List (String × Entry)

/-- ResolveContext of compiler.rs. -/
structure ResolveContext where
  env : Env
  data : Data
  locals : Option Data
  index : Option String

/-- ResolveContext::new. -/
def ResolveContext.new (env : Env) (data : Data) : ResolveContext :=
  ⟨env, data, none, none⟩

/-- ResolveContext::with_locals: same environment and data, locals replaced by
the given mapping, no current selector key. -/
def ResolveContext.with_locals (c : ResolveContext) (locals : Data) : ResolveContext :=
  ⟨c.env, c.data, some locals, none⟩

/-- ResolveContext::with_index: same environment, data and locals, with the
given current selector key. -/
def ResolveContext.with_index (c : ResolveContext) (index : Option String) : ResolveContext :=
  ⟨c.env, c.data, c.locals, index⟩

/-- Resolve for parser::Entry (compiler.rs lines 192-201): an Entity steps to
its value, any other entry steps to Null.  The Rust method always returns Ok,
so the Result wrapper is dropped here. -/
def resolveEntry : Entry → ResolveTarget
  | .Entity _ value _ _ => .Value value
  | _ => .Data .Null

/-- The operator table of the BinExpr arm (compiler.rs lines 259-284),
arm for arm.  Note that the source computes `l == r` in the BiNe arms for
booleans and strings (lines 280-281), not `l != r`; the model reproduces
that. -/
def applyBinOp (op : BinOp) (l : Data) (r : Data) : Res ResolveTarget :=
  match op, l, r with
  | .BiAdd, .Num l, .Num r => .ok (.Data (.Num (l + r)))
  | .BiSub, .Num l, .Num r => .ok (.Data (.Num (l - r)))
  | .BiMul, .Num l, .Num r => .ok (.Data (.Num (l * r)))
  | .BiDiv, .Num l, .Num r => .ok (.Data (.Num (l / r)))
  | .BiRem, .Num l, .Num r => .ok (.Data (.Num (l % r)))
  | .BiLt, .Num l, .Num r => .ok (.Data (.Bool (decide (l < r))))
  | .BiLe, .Num l, .Num r => .ok (.Data (.Bool (decide (l ≤ r))))
  | .BiGt, .Num l, .Num r => .ok (.Data (.Bool (decide (r < l))))
  | .BiGe, .Num l, .Num r => .ok (.Data (.Bool (decide (r ≤ l))))
  | .BiAnd, .Bool l, .Bool r => .ok (.Data (.Bool (l && r)))
  | .BiOr, .Bool l, .Bool r => .ok (.Data (.Bool (l || r)))
  | .BiEq, .Bool l, .Bool r => .ok (.Data (.Bool (l == r)))
  | .BiEq, .Str l, .Str r => .ok (.Data (.Bool (l == r)))
  | .BiEq, .Num l, .Num r => .ok (.Data (.Bool (l == r)))
  | .BiNe, .Bool l, .Bool r => .ok (.Data (.Bool (l == r)))
  | .BiNe, .Str l, .Str r => .ok (.Data (.Bool (l == r)))
  | .BiNe, .Num l, .Num r => .ok (.Data (.Bool (l != r)))
  | _, _, _ => .err .WrongType

/-- The unary operator table of the UnExpr arm (compiler.rs lines 289-294). -/
def applyUnOp (op : UnOp) (v : Data) : Res ResolveTarget :=
  match op, v with
  | .UnAdd, .Num n => .ok (.Data (.Num n))
  | .UnSub, .Num n => .ok (.Data (.Num (-n)))
  | .UnNot, .Bool b => .ok (.Data (.Bool (!b)))
  | _, _ => .err .WrongType

/-- Linear search of an attribute list by name, the loop of the AttrExpr arm
(compiler.rs lines 405-409). -/
def findAttr : List Attr → String → Option Value
  | [], _ => none
  | .mk id value _ :: rest, prop =>
    if id = prop then some value else findAttr rest prop

mutual

/-- Resolve for parser::Value (compiler.rs lines 203-249). -/
def resolveValue (fuel : Nat) (ctx : ResolveContext) (v : Value) : Res ResolveTarget :=
  match fuel with
  | 0 => .diverge
  | f+1 =>
    match v with
    | .Str s => .ok (.Data (.Str s))
    | .ComplexStr exprs =>
      match resolveStrList f ctx exprs with
      | .ok parts => .ok (.Data (.Str (String.join parts)))
      | .err e => .err e
      | .aborted => .aborted
      | .diverge => .diverge
    | .Hash map defKey defIndex =>
      match ctx.index.bind (fun s => alookup map s) with
      | some v2 => .ok (.Value v2)
      | none =>
        match defKey.bind (fun s => alookup map s) with
        | some v2 => .ok (.Value v2)
        | none =>
          match defIndex with
          | some e =>
            match resolveDataExpr f ctx e with
            | .ok (.Str s) =>
              match alookup map s with
              | some v2 => .ok (.Value v2)
              | none => .err .MissingIndex
            | .ok _ => .err .WrongType
            | .err e2 => .err e2
            | .aborted => .aborted
            | .diverge => .diverge
          | none => .err .MissingIndex

/-- The component loop of the ComplexStr arm (compiler.rs lines 207-217):
every component expression is fully resolved; strings pass through, numbers
are formatted, anything else is a type error. -/
def resolveStrList (fuel : Nat) (ctx : ResolveContext) (exprs : List Expr) : Res (List String) :=
  match fuel with
  | 0 => .diverge
  | f+1 =>
    match exprs with
    | [] => .ok []
    | e :: rest =>
      match resolveDataExpr f ctx e with
      | .ok (.Str s) =>
        match resolveStrList f ctx rest with
        | .ok parts => .ok (s :: parts)
        | other => other
      | .ok (.Num n) =>
        match resolveStrList f ctx rest with
        | .ok parts => .ok (toString n :: parts)
        | other => other
      | .ok _ => .err .WrongType
      | .err e2 => .err e2
      | .aborted => .aborted
      | .diverge => .diverge

/-- Resolve for parser::Expr (compiler.rs lines 251-419). -/
def resolveExpr (fuel : Nat) (ctx : ResolveContext) (e : Expr) : Res ResolveTarget :=
  match fuel with
  | 0 => .diverge
  | f+1 =>
    match e with
    | .ValExpr v => .ok (.Value v)
    | .NumExpr n => .ok (.Data (.Num n))
    | .BinExpr left op right =>
      match resolveDataExpr f ctx left with
      | .ok l =>
        match resolveDataExpr f ctx right with
        | .ok r => applyBinOp op l r
        | .err e2 => .err e2
        | .aborted => .aborted
        | .diverge => .diverge
      | .err e2 => .err e2
      | .aborted => .aborted
      | .diverge => .diverge
    | .UnExpr op e1 =>
      match resolveDataExpr f ctx e1 with
      | .ok v => applyUnOp op v
      | .err e2 => .err e2
      | .aborted => .aborted
      | .diverge => .diverge
    | .VarExpr name =>
      match ctx.locals.bind (fun locals => locals.get name) with
      | some val => .ok (.Data val)
      | none =>
        match ctx.data.get name with
        | some d => .ok (.Data d)
        | none => .err (.MissingVar name)
    | .IdentExpr id =>
      match alookup ctx.env id with
      | some entry => .ok (.Entry entry)
      | none => .err (.MissingIdent id)
    | .CondExpr cond cons alt =>
      match resolveDataExpr f ctx cond with
      | .ok (.Bool b) => if b then resolveExpr f ctx cons else resolveExpr f ctx alt
      | .ok _ => .err .WrongType
      | .err e2 => .err e2
      | .aborted => .aborted
      | .diverge => .diverge
    | .CallExpr callee args =>
      match callee with
      | .IdentExpr id =>
        match alookup ctx.env id with
        | some (.Macro _ argNames body) =>
          if args.length = argNames.length then
            match resolveArgs f ctx argNames args [] with
            | .ok m => resolveExpr f (ctx.with_locals (.Map m)) body
            | .err e2 => .err e2
            | .aborted => .aborted
            | .diverge => .diverge
          else .err .WrongNumberOfArgs
        | some _ => .err .WrongType
        | none => .err (.MissingIdent id)
      | _ => .aborted
    | .PropExpr parent prop access =>
      let propRes : Res String :=
        match access with
        | .Computed =>
          match resolveDataExpr f ctx prop with
          | .ok (.Str s) => .ok s
          | .ok _ => .err .WrongType
          | .err e2 => .err e2
          | .aborted => .aborted
          | .diverge => .diverge
        | .Static =>
          match prop with
          | .IdentExpr s => .ok s
          | _ => .err .WrongType
      match propRes with
      | .ok key =>
        match resolveExpr f ctx parent with
        | .ok (.Data (.Map m)) =>
          match alookup m key with
          | some d => .ok (.Data d)
          | none => .err .MissingIndex
        | .ok (.Entry entry) =>
          match resolveEntry entry with
          | .Value v => resolveValue f (ctx.with_index (some key)) v
          | _ => .err .WrongType
        | .ok (.Value v) => resolveValue f (ctx.with_index (some key)) v
        | .ok _ => .err .WrongType
        | .err e2 => .err e2
        | .aborted => .aborted
        | .diverge => .diverge
      | .err e2 => .err e2
      | .aborted => .aborted
      | .diverge => .diverge
    | .AttrExpr parent prop access =>
      let propRes : Res String :=
        match access with
        | .Computed =>
          match resolveDataExpr f ctx prop with
          | .ok (.Str s) => .ok s
          | .ok _ => .err .WrongType
          | .err e2 => .err e2
          | .aborted => .aborted
          | .diverge => .diverge
        | .Static =>
          match prop with
          | .IdentExpr s => .ok s
          | _ => .err .WrongType
      match propRes with
      | .ok key =>
        match resolveExpr f ctx parent with
        | .ok (.Entry (.Entity _ _ _ attrs)) =>
          match findAttr attrs key with
          | some value => resolveValue f ctx value
          | none => .err .MissingAttr
        | .ok _ => .err .WrongType
        | .err e2 => .err e2
        | .aborted => .aborted
        | .diverge => .diverge
      | .err e2 => .err e2
      | .aborted => .aborted
      | .diverge => .diverge
    | .OtherExpr _ => .aborted

/-- The argument binding loop of the CallExpr arm (compiler.rs lines 330-342):
pairs of parameter and argument are walked in order; the parameter name is
extracted first (a non-variable parameter panics), then the argument is fully
resolved and inserted under the name. -/
def resolveArgs (fuel : Nat) (ctx : ResolveContext) (argNames : List Expr)
    (args : List Expr) (acc : List (String × Data)) : Res (List (String × Data)) :=
  match fuel with
  | 0 => .diverge
  | f+1 =>
    match argNames, args with
    | .VarExpr name :: ns, a :: rest =>
      match resolveDataExpr f ctx a with
      | .ok val => resolveArgs f ctx ns rest (ainsert acc name val)
      | .err e2 => .err e2
      | .aborted => .aborted
      | .diverge => .diverge
    | _ :: _, _ :: _ => .aborted
    | _, _ => .ok acc

/-- Resolve for ResolveTarget (compiler.rs lines 182-190). -/
def resolveTarget (fuel : Nat) (ctx : ResolveContext) (t : ResolveTarget) : Res ResolveTarget :=
  match fuel with
  | 0 => .diverge
  | f+1 =>
    match t with
    | .Data d => .ok (.Data d)
    | .Entry e => .ok (resolveEntry e)
    | .Value v => resolveValue f ctx v

/-- Resolve::resolve_data for a ResolveTarget (compiler.rs lines 173-179):
the trampoline that steps until a Data is produced. -/
def resolveDataTarget (fuel : Nat) (ctx : ResolveContext) (t : ResolveTarget) : Res Data :=
  match fuel with
  | 0 => .diverge
  | f+1 =>
    match resolveTarget f ctx t with
    | .ok (.Data d) => .ok d
    | .ok other => resolveDataTarget f ctx other
    | .err e2 => .err e2
    | .aborted => .aborted
    | .diverge => .diverge

/-- Resolve::resolve_data for a parser::Expr: one step, then the trampoline. -/
def resolveDataExpr (fuel : Nat) (ctx : ResolveContext) (e : Expr) : Res Data :=
  match fuel with
  | 0 => .diverge
  | f+1 =>
    match resolveExpr f ctx e with
    | .ok (.Data d) => .ok d
    | .ok other => resolveDataTarget f ctx other
    | .err e2 => .err e2
    | .aborted => .aborted
    | .diverge => .diverge

end

/-- Resolve::resolve_data for a parser::Entry: one step, then the trampoline
(the entry step itself never fails). -/
def resolveDataEntry (fuel : Nat) (ctx : ResolveContext) (entry : Entry) : Res Data :=
  match fuel with
  | 0 => .diverge
  | f+1 =>
    match resolveEntry entry with
    | .Data d => .ok d
    | other => resolveDataTarget f ctx other

mutual

/-- add_default_indices of compiler.rs (lines 56-71): on a Hash with a
non-empty chain, the first chain expression becomes the default-selector and
every mapped value recurses with the remaining chain; on an exhausted chain or
a non-Hash value nothing changes. -/
def add_default_indices : Value → List Expr → Value
  | .Hash map defKey _, idx :: rest => .Hash (add_default_indices_map map rest) defKey (some idx)
  | v, _ => v

/-- The per-branch loop of add_default_indices (compiler.rs lines 61-63). -/
def add_default_indices_map : List (String × Value) → List Expr → List (String × Value)
  | [], _ => []
  | (k, v) :: rest, indices => (k, add_default_indices v indices) :: add_default_indices_map rest indices

end

/-- The fixup guard of compile (compiler.rs lines 27-34 and 36-43): only a Hash
value with a non-empty chain is rewritten. -/
def fixValue (v : Value) (indices : List Expr) : Value :=
  match v with
  | .Hash map defKey defIndex =>
    if indices.length > 0 then add_default_indices (.Hash map defKey defIndex) indices else v
  | _ => v

/-- The attribute fixup of compile (compiler.rs lines 35-44): each attribute
value is fixed up with the attribute chain of its own. -/
def fixAttr : Attr → Attr
  | .mk id value indices => .mk id (fixValue value indices) indices

/-- The entity fixup performed inline by compile: the main value is fixed up
with the entity chain, every attribute with its own chain. -/
def fixEntry : Entry → Entry
  | .Entity id value indices attrs => .Entity id (fixValue value indices) indices (attrs.map fixAttr)
  | e => e

/-- The entry loop of compile (compiler.rs lines 21-50), applied to the entry
list the external parser produced: comments are dropped, macros inserted
as-is, entities inserted after the fixup; a later entry with the same
identifier replaces an earlier one. -/
def compileEntries (entries : List Entry) : Env :=
  go entries []
where
  go : List Entry → Env → Env
  | [], map => map
  | entry :: rest, map =>
    match entry with
    | .Comment _ => go rest map
    | .Macro id argNames body => go rest (ainsert map id (.Macro id argNames body))
    | .Entity id value indices attrs =>
      go rest (ainsert map id (fixEntry (.Entity id value indices attrs)))

/-- Whether an entry is an Entity. -/
def Entry.isEntity : Entry → Bool
  | .Entity _ _ _ _ => true
  | _ => false

/-- The private-prefix check of localize_data_raw (context.rs line 149),
id.starts_with of the underscore character: true exactly when the first
character of the identifier is an underscore. -/
def isPrivate (id : String) : Bool :=
  match id.data with
  | [] => false
  | c :: _ => c = '_'

/-- The entry loop of Locale::localize_data_raw (context.rs lines 145-160):
private identifiers (leading underscore) are skipped, comments and macros are
skipped, every remaining entity is fully resolved and inserted under its
identifier, and the first failure aborts the whole call. -/
def localizeLoop (fuel : Nat) (ctx : ResolveContext) : List (String × Entry) → List (String × Data) → Res (List (String × Data))
  | [], acc => .ok acc
  | (id, entry) :: rest, acc =>
    if isPrivate id then localizeLoop fuel ctx rest acc
    else
      match entry with
      | .Entity _ _ _ _ =>
        match resolveDataEntry fuel ctx entry with
        | .ok d => localizeLoop fuel ctx rest (ainsert acc id d)
        | .err e => .err e
        | .aborted => .aborted
        | .diverge => .diverge
      | _ => localizeLoop fuel ctx rest acc

/-- Locale::localize_data_raw (context.rs lines 144-166), up to the external
decode step: builds one context over the held environment and the given data
and runs the entry loop on the environment. -/
def localize_data_raw (fuel : Nat) (env : Env) (data : Data) : Res (List (String × Data)) :=
  localizeLoop fuel (ResolveContext.new env data) env []

mutual

/-- Well-formedness of an expression for the safety analysis: no call whose
callee is not an identifier reference, and no variant outside the set the
resolver implements, anywhere in the expression. -/
def goodExpr : Expr → Bool
  | .ValExpr v => goodValue v
  | .NumExpr _ => true
  | .BinExpr left _ right => goodExpr left && goodExpr right
  | .UnExpr _ e => goodExpr e
  | .VarExpr _ => true
  | .IdentExpr _ => true
  | .CondExpr cond cons alt => goodExpr cond && goodExpr cons && goodExpr alt
  | .CallExpr callee args =>
    (match callee with
     | .IdentExpr _ => true
     | _ => false) && goodExprList args
  | .PropExpr parent prop _ => goodExpr parent && goodExpr prop
  | .AttrExpr parent prop _ => goodExpr parent && goodExpr prop
  | .OtherExpr _ => false

/-- Well-formedness of every expression of a list. -/
def goodExprList : List Expr → Bool
  | [] => true
  | e :: rest => goodExpr e && goodExprList rest

/-- Well-formedness of a value: every contained expression is well-formed. -/
def goodValue : Value → Bool
  | .Str _ => true
  | .ComplexStr exprs => goodExprList exprs
  | .Hash map _ defIndex =>
    goodValueMap map &&
    (match defIndex with
     | some e => goodExpr e
     | none => true)

/-- Well-formedness of every value of a hash mapping. -/
def goodValueMap : List (String × Value) → Bool
  | [] => true
  | (_, v) :: rest => goodValue v && goodValueMap rest

end

/-- Well-formedness of a macro parameter list: every parameter is a simple
variable reference, as the specification requires. -/
def goodParams : List Expr → Bool
  | [] => true
  | .VarExpr _ :: rest => goodParams rest
  | _ => false

/-- Well-formedness of an attribute list: every attribute value is
well-formed. -/
def goodAttrs : List Attr → Bool
  | [] => true
  | .mk _ value _ :: rest => goodValue value && goodAttrs rest

/-- Well-formedness of an entry. -/
def goodEntry : Entry → Bool
  | .Comment _ => true
  | .Macro _ argNames body => goodParams argNames && goodExpr body
  | .Entity _ value _ attrs => goodValue value && goodAttrs attrs

/-- Well-formedness of every entry of an environment. -/
def goodEnv : Env → Bool
  | [] => true
  | (_, entry) :: rest => goodEntry entry && goodEnv rest

/-- Well-formedness of a resolve target. -/
def goodTarget : ResolveTarget → Bool
  | .Entry e => goodEntry e
  | .Value v => goodValue v
  | .Data _ => true

/-- Well-formedness of a context: its environment is well-formed (the data and
local values contain no expressions, so nothing is required of them). -/
def goodCtx (ctx : ResolveContext) : Bool :=
  goodEnv ctx.env

/-- Classifier of a step outcome for the safety analysis: no panic happened
and an ok outcome carries a well-formed target. -/
def targetSafe : Res ResolveTarget → Bool
  | .ok t => goodTarget t
  | .err _ => true
  | .aborted => false
  | .diverge => true

/-- Classifier of any outcome: no panic happened. -/
def notAborted {α : Type} : Res α → Bool
  | .aborted => false
  | _ => true

/-- Whether an entry is a Macro. -/
def Entry.isMacro : Entry → Bool
  | .Macro _ _ _ => true
  | _ => false

/-- Whether a runtime value is a string. -/
def dataIsStr : Data → Bool
  | .Str _ => true
  | _ => false

/-- Whether an outcome is a returned Result (ok or err), as opposed to a
panic or nontermination. -/
def isSettled {α : Type} : Res α → Bool
  | .ok _ => true
  | .err _ => true
  | _ => false

/-- Whether a step result is an Entity entry. -/
def isEntityTarget : ResolveTarget → Bool
  | .Entry (.Entity _ _ _ _) => true
  | _ => false

mutual

/-- Every Hash nested at mapping depth at least the given bound carries no
default-selector expression (depth counts Hash-in-mapping nesting only, the
nesting add_default_indices walks). -/
def noDeeperIndex : Nat → Value → Bool
  | 0, .Hash map _ defIndex => defIndex.isNone && noDeeperIndexMap 0 map
  | d+1, .Hash map _ _ => noDeeperIndexMap d map
  | _, _ => true

/-- noDeeperIndex over every value of a hash mapping. -/
def noDeeperIndexMap : Nat → List (String × Value) → Bool
  | _, [] => true
  | d, (_, v) :: rest => noDeeperIndex d v && noDeeperIndexMap d rest

end

/-!
Step equations for the fuel-indexed resolver, all definitional.
-/

theorem valueStepStr (f : Nat) (ctx : ResolveContext) (s : String) :
    resolveValue (f+1) ctx (.Str s) = .ok (.Data (.Str s)) := rfl

theorem valueStepComplex (f : Nat) (ctx : ResolveContext) (exprs : List Expr) :
    resolveValue (f+1) ctx (.ComplexStr exprs) =
      match resolveStrList f ctx exprs with
      | .ok parts => .ok (.Data (.Str (String.join parts)))
      | .err e => .err e
      | .aborted => .aborted
      | .diverge => .diverge := rfl

theorem valueStepHash (f : Nat) (ctx : ResolveContext) (map : List (String × Value))
    (defKey : Option String) (defIndex : Option Expr) :
    resolveValue (f+1) ctx (.Hash map defKey defIndex) =
      match ctx.index.bind (fun s => alookup map s) with
      | some v2 => .ok (.Value v2)
      | none =>
        match defKey.bind (fun s => alookup map s) with
        | some v2 => .ok (.Value v2)
        | none =>
          match defIndex with
          | some e =>
            match resolveDataExpr f ctx e with
            | .ok (.Str s) =>
              match alookup map s with
              | some v2 => .ok (.Value v2)
              | none => .err .MissingIndex
            | .ok _ => .err .WrongType
            | .err e2 => .err e2
            | .aborted => .aborted
            | .diverge => .diverge
          | none => .err .MissingIndex := rfl

theorem strListStepNil (f : Nat) (ctx : ResolveContext) :
    resolveStrList (f+1) ctx [] = .ok [] := rfl

theorem strListStepCons (f : Nat) (ctx : ResolveContext) (e : Expr) (rest : List Expr) :
    resolveStrList (f+1) ctx (e :: rest) =
      match resolveDataExpr f ctx e with
      | .ok (.Str s) =>
        match resolveStrList f ctx rest with
        | .ok parts => .ok (s :: parts)
        | other => other
      | .ok (.Num n) =>
        match resolveStrList f ctx rest with
        | .ok parts => .ok (toString n :: parts)
        | other => other
      | .ok _ => .err .WrongType
      | .err e2 => .err e2
      | .aborted => .aborted
      | .diverge => .diverge := rfl

theorem exprStepVal (f : Nat) (ctx : ResolveContext) (v : Value) :
    resolveExpr (f+1) ctx (.ValExpr v) = .ok (.Value v) := rfl

theorem exprStepNum (f : Nat) (ctx : ResolveContext) (n : Int) :
    resolveExpr (f+1) ctx (.NumExpr n) = .ok (.Data (.Num n)) := rfl

theorem exprStepBin (f : Nat) (ctx : ResolveContext) (left : Expr) (op : BinOp) (right : Expr) :
    resolveExpr (f+1) ctx (.BinExpr left op right) =
      match resolveDataExpr f ctx left with
      | .ok l =>
        match resolveDataExpr f ctx right with
        | .ok r => applyBinOp op l r
        | .err e2 => .err e2
        | .aborted => .aborted
        | .diverge => .diverge
      | .err e2 => .err e2
      | .aborted => .aborted
      | .diverge => .diverge := rfl

theorem exprStepUn (f : Nat) (ctx : ResolveContext) (op : UnOp) (e1 : Expr) :
    resolveExpr (f+1) ctx (.UnExpr op e1) =
      match resolveDataExpr f ctx e1 with
      | .ok v => applyUnOp op v
      | .err e2 => .err e2
      | .aborted => .aborted
      | .diverge => .diverge := rfl

theorem exprStepVar (f : Nat) (ctx : ResolveContext) (name : String) :
    resolveExpr (f+1) ctx (.VarExpr name) =
      match ctx.locals.bind (fun locals => locals.get name) with
      | some val => .ok (.Data val)
      | none =>
        match ctx.data.get name with
        | some d => .ok (.Data d)
        | none => .err (.MissingVar name) := rfl

theorem exprStepIdent (f : Nat) (ctx : ResolveContext) (id : String) :
    resolveExpr (f+1) ctx (.IdentExpr id) =
      match alookup ctx.env id with
      | some entry => .ok (.Entry entry)
      | none => .err (.MissingIdent id) := rfl

theorem exprStepCond (f : Nat) (ctx : ResolveContext) (cond cons alt : Expr) :
    resolveExpr (f+1) ctx (.CondExpr cond cons alt) =
      match resolveDataExpr f ctx cond with
      | .ok (.Bool b) => if b then resolveExpr f ctx cons else resolveExpr f ctx alt
      | .ok _ => .err .WrongType
      | .err e2 => .err e2
      | .aborted => .aborted
      | .diverge => .diverge := rfl

theorem exprStepCallIdent (f : Nat) (ctx : ResolveContext) (id : String) (args : List Expr) :
    resolveExpr (f+1) ctx (.CallExpr (.IdentExpr id) args) =
      match alookup ctx.env id with
      | some (.Macro _ argNames body) =>
        if args.length = argNames.length then
          match resolveArgs f ctx argNames args [] with
          | .ok m => resolveExpr f (ctx.with_locals (.Map m)) body
          | .err e2 => .err e2
          | .aborted => .aborted
          | .diverge => .diverge
        else .err .WrongNumberOfArgs
      | some _ => .err .WrongType
      | none => .err (.MissingIdent id) := rfl

theorem exprStepPropStaticIdent (f : Nat) (ctx : ResolveContext) (parent : Expr) (key : String) :
    resolveExpr (f+1) ctx (.PropExpr parent (.IdentExpr key) .Static) =
      match resolveExpr f ctx parent with
      | .ok (.Data (.Map m)) =>
        match alookup m key with
        | some d => .ok (.Data d)
        | none => .err .MissingIndex
      | .ok (.Entry entry) =>
        match resolveEntry entry with
        | .Value v => resolveValue f (ctx.with_index (some key)) v
        | _ => .err .WrongType
      | .ok (.Value v) => resolveValue f (ctx.with_index (some key)) v
      | .ok _ => .err .WrongType
      | .err e2 => .err e2
      | .aborted => .aborted
      | .diverge => .diverge := rfl

theorem exprStepPropComputed (f : Nat) (ctx : ResolveContext) (parent prop : Expr) :
    resolveExpr (f+1) ctx (.PropExpr parent prop .Computed) =
      match (match resolveDataExpr f ctx prop with
             | .ok (.Str s) => (.ok s : Res String)
             | .ok _ => .err .WrongType
             | .err e2 => .err e2
             | .aborted => .aborted
             | .diverge => .diverge) with
      | .ok key =>
        match resolveExpr f ctx parent with
        | .ok (.Data (.Map m)) =>
          match alookup m key with
          | some d => .ok (.Data d)
          | none => .err .MissingIndex
        | .ok (.Entry entry) =>
          match resolveEntry entry with
          | .Value v => resolveValue f (ctx.with_index (some key)) v
          | _ => .err .WrongType
        | .ok (.Value v) => resolveValue f (ctx.with_index (some key)) v
        | .ok _ => .err .WrongType
        | .err e2 => .err e2
        | .aborted => .aborted
        | .diverge => .diverge
      | .err e2 => .err e2
      | .aborted => .aborted
      | .diverge => .diverge := rfl

theorem exprStepAttrStaticIdent (f : Nat) (ctx : ResolveContext) (parent : Expr) (key : String) :
    resolveExpr (f+1) ctx (.AttrExpr parent (.IdentExpr key) .Static) =
      match resolveExpr f ctx parent with
      | .ok (.Entry (.Entity _ _ _ attrs)) =>
        match findAttr attrs key with
        | some value => resolveValue f ctx value
        | none => .err .MissingAttr
      | .ok _ => .err .WrongType
      | .err e2 => .err e2
      | .aborted => .aborted
      | .diverge => .diverge := rfl

theorem exprStepAttrComputed (f : Nat) (ctx : ResolveContext) (parent prop : Expr) :
    resolveExpr (f+1) ctx (.AttrExpr parent prop .Computed) =
      match (match resolveDataExpr f ctx prop with
             | .ok (.Str s) => (.ok s : Res String)
             | .ok _ => .err .WrongType
             | .err e2 => .err e2
             | .aborted => .aborted
             | .diverge => .diverge) with
      | .ok key =>
        match resolveExpr f ctx parent with
        | .ok (.Entry (.Entity _ _ _ attrs)) =>
          match findAttr attrs key with
          | some value => resolveValue f ctx value
          | none => .err .MissingAttr
        | .ok _ => .err .WrongType
        | .err e2 => .err e2
        | .aborted => .aborted
        | .diverge => .diverge
      | .err e2 => .err e2
      | .aborted => .aborted
      | .diverge => .diverge := rfl

theorem argsStepVar (f : Nat) (ctx : ResolveContext) (name : String) (ns : List Expr)
    (a : Expr) (rest : List Expr) (acc : List (String × Data)) :
    resolveArgs (f+1) ctx (.VarExpr name :: ns) (a :: rest) acc =
      match resolveDataExpr f ctx a with
      | .ok val => resolveArgs f ctx ns rest (ainsert acc name val)
      | .err e2 => .err e2
      | .aborted => .aborted
      | .diverge => .diverge := rfl

theorem argsStepNilNames (f : Nat) (ctx : ResolveContext) (args : List Expr)
    (acc : List (String × Data)) :
    resolveArgs (f+1) ctx [] args acc = .ok acc := by
  cases args <;> rfl

theorem argsStepNilArgs (f : Nat) (ctx : ResolveContext) (ns : List Expr)
    (acc : List (String × Data)) :
    resolveArgs (f+1) ctx ns [] acc = .ok acc := by
  cases ns with
  | nil => rfl
  | cons n rest => cases n <;> rfl

theorem targetStepData (f : Nat) (ctx : ResolveContext) (d : Data) :
    resolveTarget (f+1) ctx (.Data d) = .ok (.Data d) := rfl

theorem targetStepEntry (f : Nat) (ctx : ResolveContext) (e : Entry) :
    resolveTarget (f+1) ctx (.Entry e) = .ok (resolveEntry e) := rfl

theorem targetStepValue (f : Nat) (ctx : ResolveContext) (v : Value) :
    resolveTarget (f+1) ctx (.Value v) = resolveValue f ctx v := rfl

theorem dataTargetStep (f : Nat) (ctx : ResolveContext) (t : ResolveTarget) :
    resolveDataTarget (f+1) ctx t =
      match resolveTarget f ctx t with
      | .ok (.Data d) => .ok d
      | .ok other => resolveDataTarget f ctx other
      | .err e2 => .err e2
      | .aborted => .aborted
      | .diverge => .diverge := rfl

theorem dataExprStep (f : Nat) (ctx : ResolveContext) (e : Expr) :
    resolveDataExpr (f+1) ctx e =
      match resolveExpr f ctx e with
      | .ok (.Data d) => .ok d
      | .ok other => resolveDataTarget f ctx other
      | .err e2 => .err e2
      | .aborted => .aborted
      | .diverge => .diverge := rfl

theorem dataEntryStep (f : Nat) (ctx : ResolveContext) (entry : Entry) :
    resolveDataEntry (f+1) ctx entry =
      match resolveEntry entry with
      | .Data d => .ok d
      | other => resolveDataTarget f ctx other := rfl

/-- C9: resolve-to-value applied to a target that is already a runtime value
returns that value unchanged (two fuel steps pay for the dispatch and the
trampoline test, matching the two Rust calls involved). -/
theorem resolve_data_idempotent (f : Nat) (ctx : ResolveContext) (d : Data) :
    resolveDataTarget (f + 2) ctx (.Data d) = .ok d := rfl

/-- C2 evaluation: on two equal strings the source evaluates ne to true while
eq also evaluates to true, so ne is not the negation of eq; on numbers ne
does negate eq.  This pins the copy mistake of compiler.rs lines 280-281. -/
theorem binexpr_ne_is_equality :
    resolveExpr 5 (ResolveContext.new [] .Null)
      (.BinExpr (.ValExpr (.Str "a")) .BiNe (.ValExpr (.Str "a"))) = .ok (.Data (.Bool true)) ∧
    resolveExpr 5 (ResolveContext.new [] .Null)
      (.BinExpr (.ValExpr (.Str "a")) .BiEq (.ValExpr (.Str "a"))) = .ok (.Data (.Bool true)) ∧
    applyBinOp .BiNe (.Bool false) (.Bool false) = .ok (.Data (.Bool true)) ∧
    applyBinOp .BiEq (.Bool false) (.Bool false) = .ok (.Data (.Bool true)) ∧
    applyBinOp .BiNe (.Num 1) (.Num 1) = .ok (.Data (.Bool false)) ∧
    applyBinOp .BiEq (.Num 1) (.Num 1) = .ok (.Data (.Bool true)) :=
  ⟨rfl, rfl, rfl, rfl, rfl, rfl⟩

/-- C5: a macro call with mismatched argument count fails with the
wrong-argument-count error for every argument list (the arguments are never
resolved first); an identifier bound to a non-macro entry fails with the
wrong-type error; an unbound identifier fails with the missing-identifier
error. -/
theorem call_errors :
    (∀ (f : Nat) (ctx : ResolveContext) (id mid : String) (argNames : List Expr)
      (body : Expr) (args : List Expr),
      alookup ctx.env id = some (.Macro mid argNames body) →
      args.length ≠ argNames.length →
      resolveExpr (f+1) ctx (.CallExpr (.IdentExpr id) args) = .err .WrongNumberOfArgs) ∧
    (∀ (f : Nat) (ctx : ResolveContext) (id : String) (entry : Entry) (args : List Expr),
      alookup ctx.env id = some entry →
      entry.isMacro = false →
      resolveExpr (f+1) ctx (.CallExpr (.IdentExpr id) args) = .err .WrongType) ∧
    (∀ (f : Nat) (ctx : ResolveContext) (id : String) (args : List Expr),
      alookup ctx.env id = none →
      resolveExpr (f+1) ctx (.CallExpr (.IdentExpr id) args) = .err (.MissingIdent id)) := by
  refine ⟨?_, ?_, ?_⟩
  · intro f ctx id mid argNames body args h1 h2
    rw [exprStepCallIdent]
    simp [h1, h2]
  · intro f ctx id entry args h1 h2
    rw [exprStepCallIdent]
    cases entry with
    | Comment t => simp [h1]
    | Macro a b c => simp [Entry.isMacro] at h2
    | Entity a b c d => simp [h1]
  · intro f ctx id args h1
    rw [exprStepCallIdent]
    simp [h1]

/-- C5 witness: a macro of one parameter called with no arguments fails with
the wrong-argument-count error. -/
theorem call_errors_witness :
    resolveExpr 3 (ResolveContext.new [("m", .Macro "m" [.VarExpr "n"] (.NumExpr 1))] .Null)
      (.CallExpr (.IdentExpr "m") []) = .err .WrongNumberOfArgs :=
  call_errors.1 2 (ResolveContext.new [("m", .Macro "m" [.VarExpr "n"] (.NumExpr 1))] .Null)
    "m" "m" [.VarExpr "n"] (.NumExpr 1) [] rfl (by decide)

/-- C8: in a binary expression the left operand is fully resolved first and
its error short-circuits, then the right operand is fully resolved and its
error short-circuits, and only then is the operator applied; in particular
the boolean operators do not short-circuit on the value of the left
operand. -/
theorem binexpr_eager_evaluation :
    (∀ (f : Nat) (ctx : ResolveContext) (left : Expr) (op : BinOp) (right : Expr)
      (e : ResolveError),
      resolveDataExpr f ctx left = .err e →
      resolveExpr (f+1) ctx (.BinExpr left op right) = .err e) ∧
    (∀ (f : Nat) (ctx : ResolveContext) (left : Expr) (op : BinOp) (right : Expr)
      (lv : Data) (e : ResolveError),
      resolveDataExpr f ctx left = .ok lv →
      resolveDataExpr f ctx right = .err e →
      resolveExpr (f+1) ctx (.BinExpr left op right) = .err e) ∧
    (∀ (f : Nat) (ctx : ResolveContext) (left : Expr) (op : BinOp) (right : Expr)
      (lv rv : Data),
      resolveDataExpr f ctx left = .ok lv →
      resolveDataExpr f ctx right = .ok rv →
      resolveExpr (f+1) ctx (.BinExpr left op right) = applyBinOp op lv rv) := by
  refine ⟨?_, ?_, ?_⟩
  · intro f ctx left op right e h
    rw [exprStepBin]
    simp [h]
  · intro f ctx left op right lv e h1 h2
    rw [exprStepBin]
    simp [h1, h2]
  · intro f ctx left op right lv rv h1 h2
    rw [exprStepBin]
    simp [h1, h2]

/-- C8 witness: an and-expression whose left operand resolves to false still
fails with the missing-variable error of its right operand. -/
theorem binexpr_eager_evaluation_witness :
    resolveExpr 5 (ResolveContext.new [] .Null)
      (.BinExpr (.BinExpr (.NumExpr 0) .BiLt (.NumExpr 0)) .BiAnd (.VarExpr "x")) =
      .err (.MissingVar "x") :=
  binexpr_eager_evaluation.2.1 4 (ResolveContext.new [] .Null)
    (.BinExpr (.NumExpr 0) .BiLt (.NumExpr 0)) .BiAnd (.VarExpr "x")
    (.Bool false) (.MissingVar "x") rfl rfl

/-- C6: a variable reference reads the macro-local bindings first when they
are present, falls back to the caller data when the name is absent there or
no locals exist, and fails with the missing-variable error carrying the name
when both miss; with_locals replaces any outer locals by the fresh flat
mapping while keeping environment and data; a macro call binds each fully
resolved argument under its parameter name and steps into the body under
exactly that replaced-locals context. -/
theorem var_lookup_and_macro_locals :
    (∀ (f : Nat) (ctx : ResolveContext) (l : Data) (name : String) (d : Data),
      ctx.locals = some l → l.get name = some d →
      resolveExpr (f+1) ctx (.VarExpr name) = .ok (.Data d)) ∧
    (∀ (f : Nat) (ctx : ResolveContext) (name : String) (d : Data),
      ctx.locals.bind (fun l => l.get name) = none →
      ctx.data.get name = some d →
      resolveExpr (f+1) ctx (.VarExpr name) = .ok (.Data d)) ∧
    (∀ (f : Nat) (ctx : ResolveContext) (name : String),
      ctx.locals.bind (fun l => l.get name) = none →
      ctx.data.get name = none →
      resolveExpr (f+1) ctx (.VarExpr name) = .err (.MissingVar name)) ∧
    (∀ (ctx : ResolveContext) (locals : Data),
      ctx.with_locals locals = ⟨ctx.env, ctx.data, some locals, none⟩) ∧
    (∀ (f : Nat) (ctx : ResolveContext) (name : String) (ns : List Expr) (a : Expr)
      (rest : List Expr) (acc : List (String × Data)) (d : Data),
      resolveDataExpr f ctx a = .ok d →
      resolveArgs (f+1) ctx (.VarExpr name :: ns) (a :: rest) acc =
        resolveArgs f ctx ns rest (ainsert acc name d)) ∧
    (∀ (f : Nat) (ctx : ResolveContext) (id mid : String) (argNames : List Expr)
      (body : Expr) (args : List Expr) (m : List (String × Data)),
      alookup ctx.env id = some (.Macro mid argNames body) →
      args.length = argNames.length →
      resolveArgs f ctx argNames args [] = .ok m →
      resolveExpr (f+1) ctx (.CallExpr (.IdentExpr id) args) =
        resolveExpr f (ctx.with_locals (.Map m)) body) := by
  refine ⟨?_, ?_, ?_, ?_, ?_, ?_⟩
  · intro f ctx l name d h1 h2
    rw [exprStepVar]
    simp [h1, h2]
  · intro f ctx name d h1 h2
    rw [exprStepVar]
    simp [h1, h2]
  · intro f ctx name h1 h2
    rw [exprStepVar]
    simp [h1, h2]
  · intro ctx locals
    rfl
  · intro f ctx name ns a rest acc d h
    rw [argsStepVar]
    simp [h]
  · intro f ctx id mid argNames body args m h1 h2 h3
    rw [exprStepCallIdent]
    simp [h1, h2, h3]

/-- C6 witness: with locals present the local binding of the name wins. -/
theorem var_lookup_and_macro_locals_witness :
    resolveExpr 1 ⟨[], .Str "y", some (.Map [("x", .Num 1)]), none⟩ (.VarExpr "x") =
      .ok (.Data (.Num 1)) :=
  var_lookup_and_macro_locals.1 0 ⟨[], .Str "y", some (.Map [("x", .Num 1)]), none⟩
    (.Map [("x", .Num 1)]) "x" (.Num 1) rfl rfl

/-- C1: Hash selection tries, in order: the current selector key of the
context against the mapping, the literal default key against the mapping, and
the fully resolved default-selector expression, which must resolve to a
string (other runtime kinds are an immediate wrong-type error, and a resolve
error propagates); a resolved string absent from the mapping falls through;
with no step matching the result is the missing-selector error.  A matched
branch is returned as an unevaluated Value target. -/
theorem hash_selection_priority :
    (∀ (f : Nat) (ctx : ResolveContext) (map : List (String × Value)) (defKey : Option String)
      (defIndex : Option Expr) (s : String) (v2 : Value),
      ctx.index = some s →
      alookup map s = some v2 →
      resolveValue (f+1) ctx (.Hash map defKey defIndex) = .ok (.Value v2)) ∧
    (∀ (f : Nat) (ctx : ResolveContext) (map : List (String × Value)) (k : String)
      (defIndex : Option Expr) (v2 : Value),
      ctx.index.bind (fun s => alookup map s) = none →
      alookup map k = some v2 →
      resolveValue (f+1) ctx (.Hash map (some k) defIndex) = .ok (.Value v2)) ∧
    (∀ (f : Nat) (ctx : ResolveContext) (map : List (String × Value)) (defKey : Option String)
      (e : Expr) (s : String) (v2 : Value),
      ctx.index.bind (fun s2 => alookup map s2) = none →
      defKey.bind (fun s2 => alookup map s2) = none →
      resolveDataExpr f ctx e = .ok (.Str s) →
      alookup map s = some v2 →
      resolveValue (f+1) ctx (.Hash map defKey (some e)) = .ok (.Value v2)) ∧
    (∀ (f : Nat) (ctx : ResolveContext) (map : List (String × Value)) (defKey : Option String)
      (e : Expr) (s : String),
      ctx.index.bind (fun s2 => alookup map s2) = none →
      defKey.bind (fun s2 => alookup map s2) = none →
      resolveDataExpr f ctx e = .ok (.Str s) →
      alookup map s = none →
      resolveValue (f+1) ctx (.Hash map defKey (some e)) = .err .MissingIndex) ∧
    (∀ (f : Nat) (ctx : ResolveContext) (map : List (String × Value)) (defKey : Option String)
      (e : Expr) (d : Data),
      ctx.index.bind (fun s2 => alookup map s2) = none →
      defKey.bind (fun s2 => alookup map s2) = none →
      resolveDataExpr f ctx e = .ok d →
      dataIsStr d = false →
      resolveValue (f+1) ctx (.Hash map defKey (some e)) = .err .WrongType) ∧
    (∀ (f : Nat) (ctx : ResolveContext) (map : List (String × Value)) (defKey : Option String)
      (e : Expr) (e2 : ResolveError),
      ctx.index.bind (fun s2 => alookup map s2) = none →
      defKey.bind (fun s2 => alookup map s2) = none →
      resolveDataExpr f ctx e = .err e2 →
      resolveValue (f+1) ctx (.Hash map defKey (some e)) = .err e2) ∧
    (∀ (f : Nat) (ctx : ResolveContext) (map : List (String × Value)) (defKey : Option String),
      ctx.index.bind (fun s2 => alookup map s2) = none →
      defKey.bind (fun s2 => alookup map s2) = none →
      resolveValue (f+1) ctx (.Hash map defKey none) = .err .MissingIndex) := by
  refine ⟨?_, ?_, ?_, ?_, ?_, ?_, ?_⟩
  · intro f ctx map defKey defIndex s v2 h1 h2
    rw [valueStepHash]
    simp [h1, h2]
  · intro f ctx map k defIndex v2 h1 h2
    rw [valueStepHash]
    simp [h1, h2]
  · intro f ctx map defKey e s v2 h1 h2 h3 h4
    rw [valueStepHash]
    simp [h1, h2, h3, h4]
  · intro f ctx map defKey e s h1 h2 h3 h4
    rw [valueStepHash]
    simp [h1, h2, h3, h4]
  · intro f ctx map defKey e d h1 h2 h3 h4
    rw [valueStepHash]
    cases d <;> simp [dataIsStr] at h4 ⊢ <;> simp [h1, h2, h3]
  · intro f ctx map defKey e e2 h1 h2 h3
    rw [valueStepHash]
    simp [h1, h2, h3]
  · intro f ctx map defKey h1 h2
    rw [valueStepHash]
    simp [h1, h2]

/-- C1 witness: an explicit selector key present in the mapping wins even
with a default key and a default-selector expression present. -/
theorem hash_selection_priority_witness :
    resolveValue 1 ⟨[], .Null, none, some "one"⟩
      (.Hash [("one", .Str "1"), ("two", .Str "2")] (some "two") (some (.NumExpr 9))) =
      .ok (.Value (.Str "1")) :=
  hash_selection_priority.1 0 ⟨[], .Null, none, some "one"⟩
    [("one", .Str "1"), ("two", .Str "2")] (some "two") (some (.NumExpr 9)) "one" (.Str "1")
    rfl rfl

/-- C7: attribute access with a key (the static identifier or a computed
string) requires the parent to step to an Entity entry, searches the
attribute list linearly for that key, resolves a matched attribute value
under the unchanged original context (no selector-key override), fails with
the missing-attribute error when no attribute matches, and fails with the
wrong-type error when the parent step yields anything but an Entity entry. -/
theorem attr_access_semantics :
    (∀ (f : Nat) (ctx : ResolveContext) (parent : Expr) (key eid : String) (ev : Value)
      (eidx : List Expr) (attrs : List Attr) (v : Value),
      resolveExpr f ctx parent = .ok (.Entry (.Entity eid ev eidx attrs)) →
      findAttr attrs key = some v →
      resolveExpr (f+1) ctx (.AttrExpr parent (.IdentExpr key) .Static) =
        resolveValue f ctx v) ∧
    (∀ (f : Nat) (ctx : ResolveContext) (parent : Expr) (key eid : String) (ev : Value)
      (eidx : List Expr) (attrs : List Attr),
      resolveExpr f ctx parent = .ok (.Entry (.Entity eid ev eidx attrs)) →
      findAttr attrs key = none →
      resolveExpr (f+1) ctx (.AttrExpr parent (.IdentExpr key) .Static) =
        .err .MissingAttr) ∧
    (∀ (f : Nat) (ctx : ResolveContext) (parent : Expr) (key : String) (t : ResolveTarget),
      resolveExpr f ctx parent = .ok t →
      isEntityTarget t = false →
      resolveExpr (f+1) ctx (.AttrExpr parent (.IdentExpr key) .Static) =
        .err .WrongType) ∧
    (∀ (f : Nat) (ctx : ResolveContext) (parent prop : Expr) (key eid : String) (ev : Value)
      (eidx : List Expr) (attrs : List Attr) (v : Value),
      resolveDataExpr f ctx prop = .ok (.Str key) →
      resolveExpr f ctx parent = .ok (.Entry (.Entity eid ev eidx attrs)) →
      findAttr attrs key = some v →
      resolveExpr (f+1) ctx (.AttrExpr parent prop .Computed) = resolveValue f ctx v) ∧
    (∀ (aid : String) (av : Value) (ai : List Expr) (rest : List Attr) (key : String),
      findAttr (.mk aid av ai :: rest) key =
        if aid = key then some av else findAttr rest key) := by
  refine ⟨?_, ?_, ?_, ?_, ?_⟩
  · intro f ctx parent key eid ev eidx attrs v h1 h2
    rw [exprStepAttrStaticIdent]
    simp [h1, h2]
  · intro f ctx parent key eid ev eidx attrs h1 h2
    rw [exprStepAttrStaticIdent]
    simp [h1, h2]
  · intro f ctx parent key t h1 h2
    rw [exprStepAttrStaticIdent, h1]
    cases t with
    | Entry e =>
      cases e with
      | Comment a => rfl
      | Macro a b c => rfl
      | Entity a b c d => simp [isEntityTarget] at h2
    | Value v => rfl
    | Data d => rfl
  · intro f ctx parent prop key eid ev eidx attrs v h1 h2 h3
    rw [exprStepAttrComputed]
    simp [h1, h2, h3]
  · intro aid av ai rest key
    rfl

/-- C7 witness: a static attribute access on an entity with a matching
attribute steps to resolving that attribute value under the original
context. -/
theorem attr_access_semantics_witness :
    resolveExpr 3 (ResolveContext.new [("brand", .Entity "brand" (.Str "Rust") []
      [.mk "long" (.Str "Rust Lang") []])] .Null)
      (.AttrExpr (.IdentExpr "brand") (.IdentExpr "long") .Static) =
      resolveValue 2 (ResolveContext.new [("brand", .Entity "brand" (.Str "Rust") []
        [.mk "long" (.Str "Rust Lang") []])] .Null) (.Str "Rust Lang") :=
  attr_access_semantics.1 2
    (ResolveContext.new [("brand", .Entity "brand" (.Str "Rust") []
      [.mk "long" (.Str "Rust Lang") []])] .Null)
    (.IdentExpr "brand") "long" "brand" (.Str "Rust") [] [.mk "long" (.Str "Rust Lang") []]
    (.Str "Rust Lang") rfl rfl

theorem add_default_indices_map_eq (m : List (String × Value)) (indices : List Expr) :
    add_default_indices_map m indices =
      m.map (fun p => (p.1, add_default_indices p.2 indices)) := by
  induction m with
  | nil => rfl
  | cons p rest ih =>
    cases p
    simp only [add_default_indices_map, List.map_cons, ih]

theorem noDeeperIndex_str (d : Nat) (s : String) : noDeeperIndex d (.Str s) = true := by
  cases d <;> rfl

theorem noDeeperIndex_complex (d : Nat) (exprs : List Expr) :
    noDeeperIndex d (.ComplexStr exprs) = true := by
  cases d <;> rfl

theorem noDeeperIndexMap_nil (d : Nat) : noDeeperIndexMap d [] = true := by
  cases d <;> rfl

mutual

theorem noDeeper_add (v : Value) (chain : List Expr) (h : noDeeperIndex 0 v = true) :
    noDeeperIndex chain.length (add_default_indices v chain) = true := by
  cases v with
  | Str s =>
    rw [show add_default_indices (.Str s) chain = .Str s from rfl]
    exact noDeeperIndex_str _ _
  | ComplexStr exprs =>
    rw [show add_default_indices (.ComplexStr exprs) chain = .ComplexStr exprs from rfl]
    exact noDeeperIndex_complex _ _
  | Hash map defKey defIndex =>
    cases chain with
    | nil =>
      rw [show add_default_indices (.Hash map defKey defIndex) [] = .Hash map defKey defIndex from rfl]
      exact h
    | cons idx rest =>
      rw [show add_default_indices (.Hash map defKey defIndex) (idx :: rest) =
        .Hash (add_default_indices_map map rest) defKey (some idx) from rfl]
      rw [show ((idx :: rest : List Expr).length) = rest.length + 1 from rfl]
      rw [show noDeeperIndex (rest.length + 1) (.Hash (add_default_indices_map map rest) defKey (some idx)) =
        noDeeperIndexMap rest.length (add_default_indices_map map rest) from rfl]
      rw [show noDeeperIndex 0 (.Hash map defKey defIndex) =
        (defIndex.isNone && noDeeperIndexMap 0 map) from rfl] at h
      exact noDeeperMap_add map rest (Bool.and_elim_right h)

theorem noDeeperMap_add (m : List (String × Value)) (chain : List Expr)
    (h : noDeeperIndexMap 0 m = true) :
    noDeeperIndexMap chain.length (add_default_indices_map m chain) = true := by
  cases m with
  | nil =>
    rw [show add_default_indices_map [] chain = [] from rfl]
    exact noDeeperIndexMap_nil _
  | cons p rest =>
    cases p with
    | mk k v =>
      rw [show add_default_indices_map ((k, v) :: rest) chain =
        (k, add_default_indices v chain) :: add_default_indices_map rest chain from rfl]
      rw [show noDeeperIndexMap chain.length ((k, add_default_indices v chain) :: add_default_indices_map rest chain) =
        (noDeeperIndex chain.length (add_default_indices v chain) &&
          noDeeperIndexMap chain.length (add_default_indices_map rest chain)) from rfl]
      rw [show noDeeperIndexMap 0 ((k, v) :: rest) =
        (noDeeperIndex 0 v && noDeeperIndexMap 0 rest) from rfl] at h
      rw [noDeeper_add v chain (Bool.and_elim_left h),
        noDeeperMap_add rest chain (Bool.and_elim_right h)]
      rfl

end

/-- C3: on a Hash with a non-empty selector-index chain the fixup consumes
the first chain expression as the default-selector of this Hash and recurses
into every mapped value with the remaining chain; an exhausted chain changes
nothing; when the input carries no default-selectors at all, Hashes nested at
depth at least the chain length still carry none afterwards; the compile
fixup applies the entity chain to the entity value and, independently, each
attribute chain to that attribute value. -/
theorem default_index_propagation :
    (∀ (map : List (String × Value)) (defKey : Option String) (defIndex : Option Expr)
      (idx : Expr) (rest : List Expr),
      add_default_indices (.Hash map defKey defIndex) (idx :: rest) =
        .Hash (map.map (fun p => (p.1, add_default_indices p.2 rest))) defKey (some idx)) ∧
    (∀ v : Value, add_default_indices v [] = v) ∧
    (∀ (v : Value) (chain : List Expr),
      noDeeperIndex 0 v = true →
      noDeeperIndex chain.length (add_default_indices v chain) = true) ∧
    (∀ (id : String) (v : Value) (indices : List Expr) (attrs : List Attr),
      fixEntry (.Entity id v indices attrs) =
        .Entity id (fixValue v indices) indices (attrs.map fixAttr)) ∧
    (∀ (aid : String) (av : Value) (ai : List Expr),
      fixAttr (.mk aid av ai) = .mk aid (fixValue av ai) ai) ∧
    (∀ (map : List (String × Value)) (defKey : Option String) (defIndex : Option Expr)
      (idx : Expr) (rest : List Expr),
      fixValue (.Hash map defKey defIndex) (idx :: rest) =
        add_default_indices (.Hash map defKey defIndex) (idx :: rest)) := by
  refine ⟨?_, ?_, ?_, ?_, ?_, ?_⟩
  · intro map defKey defIndex idx rest
    rw [show add_default_indices (.Hash map defKey defIndex) (idx :: rest) =
      .Hash (add_default_indices_map map rest) defKey (some idx) from rfl]
    rw [add_default_indices_map_eq]
  · intro v
    cases v <;> rfl
  · exact noDeeper_add
  · intro id v indices attrs
    rfl
  · intro aid av ai
    rfl
  · intro map defKey defIndex idx rest
    simp [fixValue]

/-- C3 witness: a two-deep chain on a two-deep Hash leaves every Hash at
depth two or more without a default-selector (the input had none anywhere). -/
theorem default_index_propagation_witness :
    noDeeperIndex 0 (.Hash [("a", .Hash [("b", .Str "y")] none none)] none none) = true ∧
    noDeeperIndex 2 (add_default_indices
      (.Hash [("a", .Hash [("b", .Str "y")] none none)] none none)
      [.NumExpr 0, .NumExpr 1]) = true :=
  ⟨rfl, default_index_propagation.2.2.1
    (.Hash [("a", .Hash [("b", .Str "y")] none none)] none none)
    [.NumExpr 0, .NumExpr 1] rfl⟩

theorem alookup_ainsert {α : Type} (acc : List (String × α)) (k : String) (v : α) (s : String) :
    alookup (ainsert acc k v) s = if k = s then some v else alookup acc s := by
  induction acc with
  | nil => simp [alookup, ainsert]
  | cons p rest ih =>
    cases p with
    | mk k2 v2 =>
      by_cases h : k2 = k
      · subst h
        by_cases h2 : k2 = s <;> simp [alookup, ainsert, h2]
      · by_cases h2 : k2 = s
        · subst h2
          have hks : ¬(k = k2) := fun hh => h hh.symm
          simp [alookup, ainsert, h, hks]
        · simp [alookup, ainsert, h, h2, ih]


theorem localizeLoop_preserves (fuel : Nat) (ctx : ResolveContext) (id : String) :
    ∀ (rows : List (String × Entry)) (acc m : List (String × Data)),
      id ∉ rows.map Prod.fst → localizeLoop fuel ctx rows acc = .ok m →
      alookup m id = alookup acc id := by
  intro rows
  induction rows with
  | nil =>
    intro acc m _ h
    simp only [localizeLoop] at h
    cases h
    rfl
  | cons p rest ih =>
    obtain ⟨i, en⟩ := p
    intro acc m hid h
    simp only [List.map_cons, List.mem_cons] at hid
    push_neg at hid
    obtain ⟨hne, hrest⟩ := hid
    by_cases hp : isPrivate i
    · simp [localizeLoop, hp] at h
      exact ih acc m hrest h
    · cases en with
      | Comment t =>
        simp [localizeLoop, hp] at h
        exact ih acc m hrest h
      | Macro a b c =>
        simp [localizeLoop, hp] at h
        exact ih acc m hrest h
      | Entity a b c d =>
        cases hres : resolveDataEntry fuel ctx (.Entity a b c d) with
        | ok d2 =>
          simp [localizeLoop, hp, hres] at h
          rw [ih (ainsert acc i d2) m hrest h, alookup_ainsert,
            if_neg (fun hh => hne hh.symm)]
        | err e2 => simp [localizeLoop, hp, hres] at h
        | aborted => simp [localizeLoop, hp, hres] at h
        | diverge => simp [localizeLoop, hp, hres] at h

theorem localizeLoop_ok_resolves (fuel : Nat) (ctx : ResolveContext) (id : String)
    (entry : Entry) (hpriv : isPrivate id = false) (hent : entry.isEntity = true) :
    ∀ (rows : List (String × Entry)) (acc m : List (String × Data)),
      localizeLoop fuel ctx rows acc = .ok m → (id, entry) ∈ rows →
      ∃ d, resolveDataEntry fuel ctx entry = .ok d := by
  intro rows
  induction rows with
  | nil =>
    intro acc m _ hmem
    cases hmem
  | cons p rest ih =>
    obtain ⟨i, en⟩ := p
    intro acc m h hmem
    rcases List.mem_cons.mp hmem with hhead | htail
    · cases hhead
      cases entry with
      | Comment t => simp [Entry.isEntity] at hent
      | Macro a b c => simp [Entry.isEntity] at hent
      | Entity a b c d =>
        cases hres : resolveDataEntry fuel ctx (.Entity a b c d) with
        | ok d2 => exact ⟨d2, rfl⟩
        | err e2 => simp [localizeLoop, hpriv, hres] at h
        | aborted => simp [localizeLoop, hpriv, hres] at h
        | diverge => simp [localizeLoop, hpriv, hres] at h
    · by_cases hp : isPrivate i
      · simp [localizeLoop, hp] at h
        exact ih acc m h htail
      · cases en with
        | Comment t =>
          simp [localizeLoop, hp] at h
          exact ih acc m h htail
        | Macro a b c =>
          simp [localizeLoop, hp] at h
          exact ih acc m h htail
        | Entity a b c d =>
          cases hres : resolveDataEntry fuel ctx (.Entity a b c d) with
          | ok d2 =>
            simp [localizeLoop, hp, hres] at h
            exact ih (ainsert acc i d2) m h htail
          | err e2 => simp [localizeLoop, hp, hres] at h
          | aborted => simp [localizeLoop, hp, hres] at h
          | diverge => simp [localizeLoop, hp, hres] at h

theorem localizeLoop_ok_lookup (fuel : Nat) (ctx : ResolveContext) (id : String)
    (entry : Entry) (d : Data) (hpriv : isPrivate id = false)
    (hent : entry.isEntity = true)
    (hres : resolveDataEntry fuel ctx entry = .ok d) :
    ∀ (rows : List (String × Entry)) (acc m : List (String × Data)),
      (rows.map Prod.fst).Nodup → localizeLoop fuel ctx rows acc = .ok m →
      alookup rows id = some entry →
      alookup m id = some d := by
  intro rows
  induction rows with
  | nil =>
    intro acc m _ _ hlk
    cases hlk
  | cons p rest ih =>
    obtain ⟨i, en⟩ := p
    intro acc m hnd h hlk
    simp only [List.map_cons, List.nodup_cons] at hnd
    obtain ⟨hni, hndr⟩ := hnd
    simp only [alookup] at hlk
    by_cases hii : i = id
    · rw [if_pos hii] at hlk
      cases hlk
      subst hii
      cases entry with
      | Comment t => simp [Entry.isEntity] at hent
      | Macro a b c => simp [Entry.isEntity] at hent
      | Entity a b c d2 =>
        simp [localizeLoop, hpriv, hres] at h
        rw [localizeLoop_preserves fuel ctx i rest (ainsert acc i d) m hni h,
          alookup_ainsert, if_pos rfl]
    · rw [if_neg hii] at hlk
      by_cases hp : isPrivate i
      · simp [localizeLoop, hp] at h
        exact ih acc m hndr h hlk
      · cases en with
        | Comment t =>
          simp [localizeLoop, hp] at h
          exact ih acc m hndr h hlk
        | Macro a b c =>
          simp [localizeLoop, hp] at h
          exact ih acc m hndr h hlk
        | Entity a b c d2 =>
          cases hres2 : resolveDataEntry fuel ctx (.Entity a b c d2) with
          | ok d3 =>
            simp [localizeLoop, hp, hres2] at h
            exact ih (ainsert acc i d3) m hndr h hlk
          | err e2 => simp [localizeLoop, hp, hres2] at h
          | aborted => simp [localizeLoop, hp, hres2] at h
          | diverge => simp [localizeLoop, hp, hres2] at h

theorem localizeLoop_ok_domain (fuel : Nat) (ctx : ResolveContext) (id : String) :
    ∀ (rows : List (String × Entry)) (acc m : List (String × Data)),
      localizeLoop fuel ctx rows acc = .ok m → (alookup m id).isSome = true →
      (∃ entry, (id, entry) ∈ rows ∧ isPrivate id = false ∧ entry.isEntity = true) ∨
        (alookup acc id).isSome = true := by
  intro rows
  induction rows with
  | nil =>
    intro acc m h hm
    simp only [localizeLoop] at h
    cases h
    exact Or.inr hm
  | cons p rest ih =>
    obtain ⟨i, en⟩ := p
    intro acc m h hm
    by_cases hp : isPrivate i
    · simp [localizeLoop, hp] at h
      rcases ih acc m h hm with ⟨entry, hmem, hx⟩ | hacc
      · exact Or.inl ⟨entry, List.mem_cons_of_mem _ hmem, hx⟩
      · exact Or.inr hacc
    · cases en with
      | Comment t =>
        simp [localizeLoop, hp] at h
        rcases ih acc m h hm with ⟨entry, hmem, hx⟩ | hacc
        · exact Or.inl ⟨entry, List.mem_cons_of_mem _ hmem, hx⟩
        · exact Or.inr hacc
      | Macro a b c =>
        simp [localizeLoop, hp] at h
        rcases ih acc m h hm with ⟨entry, hmem, hx⟩ | hacc
        · exact Or.inl ⟨entry, List.mem_cons_of_mem _ hmem, hx⟩
        · exact Or.inr hacc
      | Entity a b c d =>
        cases hres : resolveDataEntry fuel ctx (.Entity a b c d) with
        | ok d2 =>
          simp [localizeLoop, hp, hres] at h
          rcases ih (ainsert acc i d2) m h hm with ⟨entry, hmem, hx⟩ | hacc
          · exact Or.inl ⟨entry, List.mem_cons_of_mem _ hmem, hx⟩
          · rw [alookup_ainsert] at hacc
            by_cases hii : i = id
            · subst hii
              refine Or.inl ⟨.Entity a b c d, List.mem_cons_self _ _, ?_, rfl⟩
              simp only [Bool.not_eq_true] at hp
              exact hp
            · rw [if_neg hii] at hacc
              exact Or.inr hacc
        | err e2 => simp [localizeLoop, hp, hres] at h
        | aborted => simp [localizeLoop, hp, hres] at h
        | diverge => simp [localizeLoop, hp, hres] at h

theorem localizeLoop_err_aborts (fuel : Nat) (ctx : ResolveContext) (id : String)
    (entry : Entry) (e0 : ResolveError) (hpriv : isPrivate id = false)
    (hent : entry.isEntity = true)
    (hres : resolveDataEntry fuel ctx entry = .err e0) :
    ∀ (rows : List (String × Entry)) (acc : List (String × Data)),
      (id, entry) ∈ rows →
      ∀ m, localizeLoop fuel ctx rows acc ≠ .ok m := by
  intro rows
  induction rows with
  | nil =>
    intro acc hmem
    cases hmem
  | cons p rest ih =>
    obtain ⟨i, en⟩ := p
    intro acc hmem m h
    rcases List.mem_cons.mp hmem with hhead | htail
    · cases hhead
      cases entry with
      | Comment t => simp [Entry.isEntity] at hent
      | Macro a b c => simp [Entry.isEntity] at hent
      | Entity a b c d =>
        simp [localizeLoop, hpriv, hres] at h
    · by_cases hp : isPrivate i
      · simp [localizeLoop, hp] at h
        exact ih acc htail m h
      · cases en with
        | Comment t =>
          simp [localizeLoop, hp] at h
          exact ih acc htail m h
        | Macro a b c =>
          simp [localizeLoop, hp] at h
          exact ih acc htail m h
        | Entity a b c d =>
          cases hres2 : resolveDataEntry fuel ctx (.Entity a b c d) with
          | ok d2 =>
            simp [localizeLoop, hp, hres2] at h
            exact ih (ainsert acc i d2) htail m h
          | err e2 => simp [localizeLoop, hp, hres2] at h
          | aborted => simp [localizeLoop, hp, hres2] at h
          | diverge => simp [localizeLoop, hp, hres2] at h

theorem localizeLoop_err_settled (fuel : Nat) (ctx : ResolveContext) :
    ∀ (rows : List (String × Entry)) (acc : List (String × Data)),
      (∀ id entry, (id, entry) ∈ rows → isPrivate id = false →
        entry.isEntity = true → isSettled (resolveDataEntry fuel ctx entry) = true) →
      (∃ id entry e0, (id, entry) ∈ rows ∧ isPrivate id = false ∧
        entry.isEntity = true ∧ resolveDataEntry fuel ctx entry = .err e0) →
      ∃ e2, localizeLoop fuel ctx rows acc = .err e2 ∧
        ∃ id entry, (id, entry) ∈ rows ∧ isPrivate id = false ∧ entry.isEntity = true ∧
          resolveDataEntry fuel ctx entry = .err e2 := by
  intro rows
  induction rows with
  | nil =>
    intro acc _ hex
    obtain ⟨id, entry, e0, hmem, _⟩ := hex
    cases hmem
  | cons p rest ih =>
    obtain ⟨i, en⟩ := p
    intro acc hall hex
    have hallr : ∀ id entry, (id, entry) ∈ rest → isPrivate id = false →
        entry.isEntity = true → isSettled (resolveDataEntry fuel ctx entry) = true :=
      fun id entry hm => hall id entry (List.mem_cons_of_mem _ hm)
    by_cases hp : isPrivate i
    · have hexr : ∃ id entry e0, (id, entry) ∈ rest ∧ isPrivate id = false ∧
          entry.isEntity = true ∧ resolveDataEntry fuel ctx entry = .err e0 := by
        obtain ⟨id, entry, e0, hmem, hpriv, hent, hres⟩ := hex
        rcases List.mem_cons.mp hmem with hhead | htail
        · cases hhead; rw [hp] at hpriv; cases hpriv
        · exact ⟨id, entry, e0, htail, hpriv, hent, hres⟩
      obtain ⟨e2, hloop, id, entry, hmem, hx⟩ := ih acc hallr hexr
      refine ⟨e2, ?_, id, entry, List.mem_cons_of_mem _ hmem, hx⟩
      simp [localizeLoop, hp]
      exact hloop
    · cases en with
      | Comment t =>
        have hexr : ∃ id entry e0, (id, entry) ∈ rest ∧ isPrivate id = false ∧
            entry.isEntity = true ∧ resolveDataEntry fuel ctx entry = .err e0 := by
          obtain ⟨id, entry, e0, hmem, hpriv, hent, hres⟩ := hex
          rcases List.mem_cons.mp hmem with hhead | htail
          · cases hhead; simp [Entry.isEntity] at hent
          · exact ⟨id, entry, e0, htail, hpriv, hent, hres⟩
        obtain ⟨e2, hloop, id, entry, hmem, hx⟩ := ih acc hallr hexr
        refine ⟨e2, ?_, id, entry, List.mem_cons_of_mem _ hmem, hx⟩
        simp [localizeLoop, hp]
        exact hloop
      | Macro a b c =>
        have hexr : ∃ id entry e0, (id, entry) ∈ rest ∧ isPrivate id = false ∧
            entry.isEntity = true ∧ resolveDataEntry fuel ctx entry = .err e0 := by
          obtain ⟨id, entry, e0, hmem, hpriv, hent, hres⟩ := hex
          rcases List.mem_cons.mp hmem with hhead | htail
          · cases hhead; simp [Entry.isEntity] at hent
          · exact ⟨id, entry, e0, htail, hpriv, hent, hres⟩
        obtain ⟨e2, hloop, id, entry, hmem, hx⟩ := ih acc hallr hexr
        refine ⟨e2, ?_, id, entry, List.mem_cons_of_mem _ hmem, hx⟩
        simp [localizeLoop, hp]
        exact hloop
      | Entity a b c d =>
        cases hres0 : resolveDataEntry fuel ctx (.Entity a b c d) with
        | ok d2 =>
          have hexr : ∃ id entry e0, (id, entry) ∈ rest ∧ isPrivate id = false ∧
              entry.isEntity = true ∧ resolveDataEntry fuel ctx entry = .err e0 := by
            obtain ⟨id, entry, e0, hmem, hpriv, hent, hres⟩ := hex
            rcases List.mem_cons.mp hmem with hhead | htail
            · cases hhead; rw [hres0] at hres; cases hres
            · exact ⟨id, entry, e0, htail, hpriv, hent, hres⟩
          obtain ⟨e2, hloop, id, entry, hmem, hx⟩ := ih (ainsert acc i d2) hallr hexr
          refine ⟨e2, ?_, id, entry, List.mem_cons_of_mem _ hmem, hx⟩
          simp [localizeLoop, hp, hres0]
          exact hloop
        | err e2 =>
          refine ⟨e2, ?_, i, .Entity a b c d, List.mem_cons_self _ _, ?_,
            by simp [Entry.isEntity], hres0⟩
          · simp [localizeLoop, hp, hres0]
          · simp only [Bool.not_eq_true] at hp
            exact hp
        | aborted =>
          have := hall i (.Entity a b c d) (List.mem_cons_self _ _)
            (by simp only [Bool.not_eq_true] at hp; exact hp) (by simp [Entry.isEntity])
          rw [hres0] at this
          cases this
        | diverge =>
          have := hall i (.Entity a b c d) (List.mem_cons_self _ _)
            (by simp only [Bool.not_eq_true] at hp; exact hp) (by simp [Entry.isEntity])
          rw [hres0] at this
          cases this

theorem alookup_mem {α : Type} : ∀ (l : List (String × α)) (id : String) (v : α),
    alookup l id = some v → (id, v) ∈ l := by
  intro l
  induction l with
  | nil => intro id v h; cases h
  | cons p rest ih =>
    obtain ⟨k, v2⟩ := p
    intro id v h
    simp only [alookup] at h
    by_cases hk : k = id
    · rw [if_pos hk] at h
      cases h
      subst hk
      exact List.mem_cons_self _ _
    · rw [if_neg hk] at h
      exact List.mem_cons_of_mem _ (ih id v h)

/-- C4: on a successful localize call the output holds, for every identifier
bound to a non-private Entity, exactly the resolved value of that entity
under its identifier; everything the output holds comes from a non-private
Entity (comments, macros and private identifiers never appear); an included
entity whose resolution fails makes the whole call fail, and when every
included entity either resolves or errors, the call returns the resolve
error of one of the failing included entities (the Except-style result type
leaves no room for a partial output mapping). -/
theorem localize_public_entities :
    (∀ (fuel : Nat) (env : Env) (data : Data) (m : List (String × Data))
      (id : String) (entry : Entry),
      (env.map Prod.fst).Nodup →
      localize_data_raw fuel env data = .ok m →
      alookup env id = some entry →
      isPrivate id = false →
      entry.isEntity = true →
      ∃ d, resolveDataEntry fuel (ResolveContext.new env data) entry = .ok d ∧
        alookup m id = some d) ∧
    (∀ (fuel : Nat) (env : Env) (data : Data) (m : List (String × Data)) (id : String),
      localize_data_raw fuel env data = .ok m →
      (alookup m id).isSome = true →
      ∃ entry, (id, entry) ∈ env ∧ isPrivate id = false ∧ entry.isEntity = true) ∧
    (∀ (fuel : Nat) (env : Env) (data : Data) (id : String) (entry : Entry)
      (e0 : ResolveError),
      (id, entry) ∈ env →
      isPrivate id = false →
      entry.isEntity = true →
      resolveDataEntry fuel (ResolveContext.new env data) entry = .err e0 →
      ∀ m, localize_data_raw fuel env data ≠ .ok m) ∧
    (∀ (fuel : Nat) (env : Env) (data : Data),
      (∀ id entry, (id, entry) ∈ env → isPrivate id = false → entry.isEntity = true →
        isSettled (resolveDataEntry fuel (ResolveContext.new env data) entry) = true) →
      (∃ id entry e0, (id, entry) ∈ env ∧ isPrivate id = false ∧ entry.isEntity = true ∧
        resolveDataEntry fuel (ResolveContext.new env data) entry = .err e0) →
      ∃ e2, localize_data_raw fuel env data = .err e2 ∧
        ∃ id entry, (id, entry) ∈ env ∧ isPrivate id = false ∧ entry.isEntity = true ∧
          resolveDataEntry fuel (ResolveContext.new env data) entry = .err e2) := by
  refine ⟨?_, ?_, ?_, ?_⟩
  · intro fuel env data m id entry hnd h hlk hpriv hent
    obtain ⟨d, hres⟩ := localizeLoop_ok_resolves fuel (ResolveContext.new env data) id entry
      hpriv hent env [] m h (alookup_mem env id entry hlk)
    exact ⟨d, hres, localizeLoop_ok_lookup fuel (ResolveContext.new env data) id entry d
      hpriv hent hres env [] m hnd h hlk⟩
  · intro fuel env data m id h hm
    rcases localizeLoop_ok_domain fuel (ResolveContext.new env data) id env [] m h hm with
      hfound | habs
    · exact hfound
    · cases habs
  · intro fuel env data id entry e0 hmem hpriv hent hres m
    exact localizeLoop_err_aborts fuel (ResolveContext.new env data) id entry e0
      hpriv hent hres env [] hmem m
  · intro fuel env data hall hex
    exact localizeLoop_err_settled fuel (ResolveContext.new env data) env [] hall hex

/-- C4 witness: a single public entity is resolved and appears under its
identifier in the output. -/
theorem localize_public_entities_witness :
    ∃ d, resolveDataEntry 10 (ResolveContext.new [("hi", .Entity "hi" (.Str "hello world") [] [])] .Null)
      (.Entity "hi" (.Str "hello world") [] []) = .ok d ∧
      alookup [("hi", Data.Str "hello world")] "hi" = some d :=
  localize_public_entities.1 10 [("hi", .Entity "hi" (.Str "hello world") [] [])] .Null
    [("hi", Data.Str "hello world")] "hi" (.Entity "hi" (.Str "hello world") [] [])
    (by simp) rfl rfl rfl rfl

theorem targetSafe_notAborted (r : Res ResolveTarget) (h : targetSafe r = true) :
    notAborted r = true := by
  cases r <;> first | rfl | exact h

theorem applyBinOp_safe (op : BinOp) (l r : Data) : targetSafe (applyBinOp op l r) = true := by
  cases op <;> cases l <;> cases r <;> rfl

theorem applyUnOp_safe (op : UnOp) (v : Data) : targetSafe (applyUnOp op v) = true := by
  cases op <;> cases v <;> rfl

theorem alookup_goodEnv : ∀ (env : Env) (id : String) (entry : Entry),
    goodEnv env = true → alookup env id = some entry → goodEntry entry = true := by
  intro env
  induction env with
  | nil => intro id entry _ h; cases h
  | cons p rest ih =>
    obtain ⟨k, en⟩ := p
    intro id entry hg h
    simp only [goodEnv, Bool.and_eq_true] at hg
    simp only [alookup] at h
    by_cases hk : k = id
    · rw [if_pos hk] at h
      cases h
      exact hg.1
    · rw [if_neg hk] at h
      exact ih id entry hg.2 h

theorem alookup_goodValueMap : ∀ (m : List (String × Value)) (s : String) (v : Value),
    goodValueMap m = true → alookup m s = some v → goodValue v = true := by
  intro m
  induction m with
  | nil => intro s v _ h; cases h
  | cons p rest ih =>
    obtain ⟨k, v2⟩ := p
    intro s v hg h
    simp only [goodValueMap, Bool.and_eq_true] at hg
    simp only [alookup] at h
    by_cases hk : k = s
    · rw [if_pos hk] at h
      cases h
      exact hg.1
    · rw [if_neg hk] at h
      exact ih s v hg.2 h

theorem findAttr_good : ∀ (attrs : List Attr) (k : String) (v : Value),
    goodAttrs attrs = true → findAttr attrs k = some v → goodValue v = true := by
  intro attrs
  induction attrs with
  | nil => intro k v _ h; cases h
  | cons a rest ih =>
    obtain ⟨aid, av, ai⟩ := a
    intro k v hg h
    simp only [goodAttrs, Bool.and_eq_true] at hg
    simp only [findAttr] at h
    by_cases hk : aid = k
    · rw [if_pos hk] at h
      cases h
      exact hg.1
    · rw [if_neg hk] at h
      exact ih k v hg.2 h

theorem goodParams_cons (n : Expr) (rest : List Expr) (h : goodParams (n :: rest) = true) :
    ∃ name, n = .VarExpr name ∧ goodParams rest = true := by
  cases n with
  | VarExpr name => exact ⟨name, rfl, h⟩
  | ValExpr v => cases h
  | NumExpr a => cases h
  | BinExpr a b c => cases h
  | UnExpr a b => cases h
  | IdentExpr a => cases h
  | CondExpr a b c => cases h
  | CallExpr a b => cases h
  | PropExpr a b c => cases h
  | AttrExpr a b c => cases h
  | OtherExpr a => cases h

theorem valueStepHashDefIndex (f : Nat) (ctx : ResolveContext) (map : List (String × Value))
    (defKey : Option String) (e : Expr)
    (h1 : ctx.index.bind (fun s => alookup map s) = none)
    (h2 : defKey.bind (fun s => alookup map s) = none) :
    resolveValue (f+1) ctx (.Hash map defKey (some e)) =
      match resolveDataExpr f ctx e with
      | .ok (.Str s) =>
        (match alookup map s with
         | some v2 => .ok (.Value v2)
         | none => .err .MissingIndex)
      | .ok _ => .err .WrongType
      | .err e2 => .err e2
      | .aborted => .aborted
      | .diverge => .diverge := by
  rw [valueStepHash, h1, h2]

theorem valueStepHashDefIndexStr (f : Nat) (ctx : ResolveContext) (map : List (String × Value))
    (defKey : Option String) (e : Expr) (s : String)
    (h1 : ctx.index.bind (fun s => alookup map s) = none)
    (h2 : defKey.bind (fun s => alookup map s) = none)
    (h3 : resolveDataExpr f ctx e = .ok (.Str s)) :
    resolveValue (f+1) ctx (.Hash map defKey (some e)) =
      match alookup map s with
      | some v2 => .ok (.Value v2)
      | none => .err .MissingIndex := by
  rw [valueStepHashDefIndex f ctx map defKey e h1 h2, h3]

theorem targetSafe_mapLookup (o : Option Data) :
    targetSafe (match o with
      | some d => Res.ok (ResolveTarget.Data d)
      | none => Res.err ResolveError.MissingIndex) = true := by
  cases o <;> rfl

theorem targetSafe_hashLookup (map : List (String × Value)) (s : String)
    (h : goodValueMap map = true) :
    targetSafe (match alookup map s with
      | some v2 => Res.ok (ResolveTarget.Value v2)
      | none => Res.err ResolveError.MissingIndex) = true := by
  cases hlk : alookup map s with
  | some v2 => simpa [targetSafe, goodTarget] using alookup_goodValueMap map s v2 h hlk
  | none => rfl

theorem exprStepCallMacro (f : Nat) (ctx : ResolveContext) (id : String) (args : List Expr)
    (mid : String) (argNames : List Expr) (body : Expr)
    (hlk : alookup ctx.env id = some (.Macro mid argNames body)) :
    resolveExpr (f+1) ctx (.CallExpr (.IdentExpr id) args) =
      if args.length = argNames.length then
        match resolveArgs f ctx argNames args [] with
        | .ok m => resolveExpr f (ctx.with_locals (.Map m)) body
        | .err e2 => .err e2
        | .aborted => .aborted
        | .diverge => .diverge
      else .err .WrongNumberOfArgs := by
  rw [exprStepCallIdent, hlk]

theorem exprStepPropComputedStr (f : Nat) (ctx : ResolveContext) (parent prop : Expr)
    (key : String) (h : resolveDataExpr f ctx prop = .ok (.Str key)) :
    resolveExpr (f+1) ctx (.PropExpr parent prop .Computed) =
      match resolveExpr f ctx parent with
      | .ok (.Data (.Map m)) =>
        (match alookup m key with
         | some d => .ok (.Data d)
         | none => .err .MissingIndex)
      | .ok (.Entry entry) =>
        (match resolveEntry entry with
         | .Value v => resolveValue f (ctx.with_index (some key)) v
         | _ => .err .WrongType)
      | .ok (.Value v) => resolveValue f (ctx.with_index (some key)) v
      | .ok _ => .err .WrongType
      | .err e2 => .err e2
      | .aborted => .aborted
      | .diverge => .diverge := by
  rw [exprStepPropComputed, h]

theorem exprStepAttrComputedStr (f : Nat) (ctx : ResolveContext) (parent prop : Expr)
    (key : String) (h : resolveDataExpr f ctx prop = .ok (.Str key)) :
    resolveExpr (f+1) ctx (.AttrExpr parent prop .Computed) =
      match resolveExpr f ctx parent with
      | .ok (.Entry (.Entity _ _ _ attrs)) =>
        (match findAttr attrs key with
         | some value => resolveValue f ctx value
         | none => .err .MissingAttr)
      | .ok _ => .err .WrongType
      | .err e2 => .err e2
      | .aborted => .aborted
      | .diverge => .diverge := by
  rw [exprStepAttrComputed, h]

theorem goodValue_hash_elim (map : List (String × Value)) (defKey : Option String)
    (defIndex : Option Expr) (h : goodValue (.Hash map defKey defIndex) = true) :
    goodValueMap map = true ∧ (∀ e, defIndex = some e → goodExpr e = true) := by
  constructor
  · cases defIndex with
    | none => exact Bool.and_elim_left (show (goodValueMap map && true) = true from h)
    | some e => exact Bool.and_elim_left (show (goodValueMap map && goodExpr e) = true from h)
  · intro e he
    subst he
    exact Bool.and_elim_right (show (goodValueMap map && goodExpr e) = true from h)

theorem noPanicAll : ∀ fuel : Nat,
    (∀ (ctx : ResolveContext) (v : Value), goodEnv ctx.env = true → goodValue v = true →
      targetSafe (resolveValue fuel ctx v) = true) ∧
    (∀ (ctx : ResolveContext) (exprs : List Expr), goodEnv ctx.env = true →
      goodExprList exprs = true → notAborted (resolveStrList fuel ctx exprs) = true) ∧
    (∀ (ctx : ResolveContext) (e : Expr), goodEnv ctx.env = true → goodExpr e = true →
      targetSafe (resolveExpr fuel ctx e) = true) ∧
    (∀ (ctx : ResolveContext) (ns args : List Expr) (acc : List (String × Data)),
      goodEnv ctx.env = true → goodParams ns = true → goodExprList args = true →
      notAborted (resolveArgs fuel ctx ns args acc) = true) ∧
    (∀ (ctx : ResolveContext) (t : ResolveTarget), goodEnv ctx.env = true →
      goodTarget t = true → targetSafe (resolveTarget fuel ctx t) = true) ∧
    (∀ (ctx : ResolveContext) (t : ResolveTarget), goodEnv ctx.env = true →
      goodTarget t = true → notAborted (resolveDataTarget fuel ctx t) = true) ∧
    (∀ (ctx : ResolveContext) (e : Expr), goodEnv ctx.env = true → goodExpr e = true →
      notAborted (resolveDataExpr fuel ctx e) = true) := by
  intro fuel
  induction fuel with
  | zero => refine ⟨?_, ?_, ?_, ?_, ?_, ?_, ?_⟩ <;> intros <;> rfl
  | succ f ih =>
    obtain ⟨ihV, ihS, ihE, ihA, ihT, ihDT, ihDE⟩ := ih
    refine ⟨?_, ?_, ?_, ?_, ?_, ?_, ?_⟩
    · -- resolveValue
      intro ctx v hEnv hV
      cases v with
      | Str s => rfl
      | ComplexStr exprs =>
        rw [valueStepComplex]
        have hV2 : goodExprList exprs = true := hV
        have hS := ihS ctx exprs hEnv hV2
        cases hres : resolveStrList f ctx exprs with
        | ok parts => rfl
        | err e2 => rfl
        | aborted => rw [hres] at hS; cases hS
        | diverge => rfl
      | Hash map defKey defIndex =>
        obtain ⟨hVm, hVdFn⟩ := goodValue_hash_elim map defKey defIndex hV
        cases h1 : ctx.index.bind (fun s => alookup map s) with
        | some v2 =>
          obtain ⟨s, _, hlk⟩ := Option.bind_eq_some.mp h1
          have heq : resolveValue (f+1) ctx (.Hash map defKey defIndex) = .ok (.Value v2) := by
            rw [valueStepHash, h1]
          rw [heq]
          simpa [targetSafe, goodTarget] using alookup_goodValueMap map s v2 hVm hlk
        | none =>
          cases h2 : defKey.bind (fun s => alookup map s) with
          | some v2 =>
            obtain ⟨s, _, hlk⟩ := Option.bind_eq_some.mp h2
            have heq : resolveValue (f+1) ctx (.Hash map defKey defIndex) = .ok (.Value v2) := by
              rw [valueStepHash, h1, h2]
            rw [heq]
            simpa [targetSafe, goodTarget] using alookup_goodValueMap map s v2 hVm hlk
          | none =>
            cases defIndex with
            | none =>
              have heq : resolveValue (f+1) ctx (.Hash map defKey none) = .err .MissingIndex := by
                rw [valueStepHash, h1, h2]
              rw [heq]
              rfl
            | some e =>
              have hE : goodExpr e = true := hVdFn e rfl
              have hD := ihDE ctx e hEnv hE
              cases hres : resolveDataExpr f ctx e with
              | ok d =>
                cases d with
                | Str s =>
                  rw [valueStepHashDefIndexStr f ctx map defKey e s h1 h2 hres]
                  exact targetSafe_hashLookup map s hVm
                | Null => rw [valueStepHashDefIndex f ctx map defKey e h1 h2, hres]; rfl
                | Bool b => rw [valueStepHashDefIndex f ctx map defKey e h1 h2, hres]; rfl
                | Num n => rw [valueStepHashDefIndex f ctx map defKey e h1 h2, hres]; rfl
                | Map m2 => rw [valueStepHashDefIndex f ctx map defKey e h1 h2, hres]; rfl
              | err e2 => rw [valueStepHashDefIndex f ctx map defKey e h1 h2, hres]; rfl
              | aborted => rw [hres] at hD; cases hD
              | diverge => rw [valueStepHashDefIndex f ctx map defKey e h1 h2, hres]; rfl
    · -- resolveStrList
      intro ctx exprs hEnv hL
      cases exprs with
      | nil => rfl
      | cons e rest =>
        rw [strListStepCons]
        have hL2 : (goodExpr e && goodExprList rest) = true := hL
        have hE := Bool.and_elim_left hL2
        have hRest := Bool.and_elim_right hL2
        have hD := ihDE ctx e hEnv hE
        cases hres : resolveDataExpr f ctx e with
        | ok d =>
          cases d with
          | Str s =>
            have hS := ihS ctx rest hEnv hRest
            cases hres2 : resolveStrList f ctx rest with
            | ok parts => rfl
            | err e2 => rfl
            | aborted => rw [hres2] at hS; cases hS
            | diverge => rfl
          | Num n =>
            have hS := ihS ctx rest hEnv hRest
            cases hres2 : resolveStrList f ctx rest with
            | ok parts => rfl
            | err e2 => rfl
            | aborted => rw [hres2] at hS; cases hS
            | diverge => rfl
          | Null => rfl
          | Bool b => rfl
          | Map m => rfl
        | err e2 => rfl
        | aborted => rw [hres] at hD; cases hD
        | diverge => rfl
    · -- resolveExpr
      intro ctx e hEnv hG
      cases e with
      | ValExpr v =>
        rw [exprStepVal]
        have hGv : goodValue v = true := hG
        simpa [targetSafe, goodTarget] using hGv
      | NumExpr n => rfl
      | BinExpr l op r =>
        rw [exprStepBin]
        have hG2 : (goodExpr l && goodExpr r) = true := hG
        have hL := Bool.and_elim_left hG2
        have hR := Bool.and_elim_right hG2
        have hDl := ihDE ctx l hEnv hL
        cases hresL : resolveDataExpr f ctx l with
        | ok lv =>
          have hDr := ihDE ctx r hEnv hR
          cases hresR : resolveDataExpr f ctx r with
          | ok rv => exact applyBinOp_safe op lv rv
          | err e2 => rfl
          | aborted => rw [hresR] at hDr; cases hDr
          | diverge => rfl
        | err e2 => rfl
        | aborted => rw [hresL] at hDl; cases hDl
        | diverge => rfl
      | UnExpr op e1 =>
        rw [exprStepUn]
        have hG2 : goodExpr e1 = true := hG
        have hD := ihDE ctx e1 hEnv hG2
        cases hres : resolveDataExpr f ctx e1 with
        | ok v => exact applyUnOp_safe op v
        | err e2 => rfl
        | aborted => rw [hres] at hD; cases hD
        | diverge => rfl
      | VarExpr name =>
        rw [exprStepVar]
        cases ctx.locals.bind (fun locals => locals.get name) with
        | some val => rfl
        | none =>
          cases ctx.data.get name with
          | some d => rfl
          | none => rfl
      | IdentExpr id =>
        rw [exprStepIdent]
        cases hlk : alookup ctx.env id with
        | some entry =>
          simpa [targetSafe, goodTarget] using alookup_goodEnv ctx.env id entry hEnv hlk
        | none => rfl
      | CondExpr cond cons alt =>
        rw [exprStepCond]
        have hG2 : (goodExpr cond && goodExpr cons && goodExpr alt) = true := hG
        have hC := Bool.and_elim_left (Bool.and_elim_left hG2)
        have hT2 := Bool.and_elim_right (Bool.and_elim_left hG2)
        have hA2 := Bool.and_elim_right hG2
        have hD := ihDE ctx cond hEnv hC
        cases hres : resolveDataExpr f ctx cond with
        | ok d =>
          cases d with
          | Bool b =>
            cases b with
            | true => simpa using ihE ctx cons hEnv hT2
            | false => simpa using ihE ctx alt hEnv hA2
          | Null => rfl
          | Num n => rfl
          | Str s => rfl
          | Map m => rfl
        | err e2 => rfl
        | aborted => rw [hres] at hD; cases hD
        | diverge => rfl
      | CallExpr callee args =>
        cases callee with
        | IdentExpr id =>
          have hArgs : goodExprList args = true := hG
          cases hlk : alookup ctx.env id with
          | some entry =>
            cases entry with
            | Comment t => rw [exprStepCallIdent, hlk]; rfl
            | Entity a b c d => rw [exprStepCallIdent, hlk]; rfl
            | Macro mid argNames body =>
              have hEntry : (goodParams argNames && goodExpr body) = true :=
                alookup_goodEnv ctx.env id _ hEnv hlk
              have hP := Bool.and_elim_left hEntry
              have hB := Bool.and_elim_right hEntry
              by_cases hlen : args.length = argNames.length
              · have hA3 := ihA ctx argNames args [] hEnv hP hArgs
                cases hres : resolveArgs f ctx argNames args [] with
                | ok m =>
                  rw [exprStepCallMacro f ctx id args mid argNames body hlk,
                    if_pos hlen, hres]
                  exact ihE (ctx.with_locals (.Map m)) body hEnv hB
                | err e2 =>
                  rw [exprStepCallMacro f ctx id args mid argNames body hlk,
                    if_pos hlen, hres]
                  rfl
                | aborted => rw [hres] at hA3; cases hA3
                | diverge =>
                  rw [exprStepCallMacro f ctx id args mid argNames body hlk,
                    if_pos hlen, hres]
                  rfl
              · rw [exprStepCallMacro f ctx id args mid argNames body hlk, if_neg hlen]; rfl
          | none => rw [exprStepCallIdent, hlk]; rfl
        | ValExpr v => simp [goodExpr] at hG
        | NumExpr n => simp [goodExpr] at hG
        | BinExpr a b c => simp [goodExpr] at hG
        | UnExpr a b => simp [goodExpr] at hG
        | VarExpr a => simp [goodExpr] at hG
        | CondExpr a b c => simp [goodExpr] at hG
        | CallExpr a b => simp [goodExpr] at hG
        | PropExpr a b c => simp [goodExpr] at hG
        | AttrExpr a b c => simp [goodExpr] at hG
        | OtherExpr a => simp [goodExpr] at hG
      | PropExpr parent prop access =>
        have hG2 : (goodExpr parent && goodExpr prop) = true := hG
        have hPar := Bool.and_elim_left hG2
        have hProp := Bool.and_elim_right hG2
        have hP := ihE ctx parent hEnv hPar
        cases access with
        | Static =>
          cases prop with
          | IdentExpr key =>
            cases hres : resolveExpr f ctx parent with
            | ok t =>
              rw [hres] at hP
              have hPt : goodTarget t = true := hP
              cases t with
              | Data d =>
                cases d with
                | Map m =>
                  rw [exprStepPropStaticIdent, hres]
                  exact targetSafe_mapLookup (alookup m key)
                | Null => rw [exprStepPropStaticIdent, hres]; rfl
                | Bool b => rw [exprStepPropStaticIdent, hres]; rfl
                | Num n => rw [exprStepPropStaticIdent, hres]; rfl
                | Str s => rw [exprStepPropStaticIdent, hres]; rfl
              | Entry entry =>
                cases entry with
                | Comment t2 => rw [exprStepPropStaticIdent, hres]; rfl
                | Macro a b c => rw [exprStepPropStaticIdent, hres]; rfl
                | Entity a b c d =>
                  have hPE : (goodValue b && goodAttrs d) = true := hPt
                  rw [exprStepPropStaticIdent, hres]
                  exact ihV (ctx.with_index (some key)) b hEnv (Bool.and_elim_left hPE)
              | Value v =>
                have hPv : goodValue v = true := hPt
                rw [exprStepPropStaticIdent, hres]
                exact ihV (ctx.with_index (some key)) v hEnv hPv
            | err e2 => rw [exprStepPropStaticIdent, hres]; rfl
            | aborted => rw [hres] at hP; cases hP
            | diverge => rw [exprStepPropStaticIdent, hres]; rfl
          | ValExpr v => rfl
          | NumExpr n => rfl
          | BinExpr a b c => rfl
          | UnExpr a b => rfl
          | VarExpr a => rfl
          | CondExpr a b c => rfl
          | CallExpr a b => rfl
          | PropExpr a b c => rfl
          | AttrExpr a b c => rfl
          | OtherExpr a => rfl
        | Computed =>
          have hD := ihDE ctx prop hEnv hProp
          cases hresK : resolveDataExpr f ctx prop with
          | ok d =>
            cases d with
            | Str key =>
              rw [exprStepPropComputedStr f ctx parent prop key hresK]
              cases hres : resolveExpr f ctx parent with
              | ok t =>
                rw [hres] at hP
                have hPt : goodTarget t = true := hP
                cases t with
                | Data d2 =>
                  cases d2 with
                  | Map m => exact targetSafe_mapLookup (alookup m key)
                  | Null => rfl
                  | Bool b => rfl
                  | Num n => rfl
                  | Str s => rfl
                | Entry entry =>
                  cases entry with
                  | Comment t2 => rfl
                  | Macro a b c => rfl
                  | Entity a b c d2 =>
                    have hPE : (goodValue b && goodAttrs d2) = true := hPt
                    exact ihV (ctx.with_index (some key)) b hEnv (Bool.and_elim_left hPE)
                | Value v =>
                  have hPv : goodValue v = true := hPt
                  exact ihV (ctx.with_index (some key)) v hEnv hPv
              | err e2 => rfl
              | aborted => rw [hres] at hP; cases hP
              | diverge => rfl
            | Null => rw [exprStepPropComputed, hresK]; rfl
            | Bool b => rw [exprStepPropComputed, hresK]; rfl
            | Num n => rw [exprStepPropComputed, hresK]; rfl
            | Map m => rw [exprStepPropComputed, hresK]; rfl
          | err e2 => rw [exprStepPropComputed, hresK]; rfl
          | aborted => rw [hresK] at hD; cases hD
          | diverge => rw [exprStepPropComputed, hresK]; rfl
      | AttrExpr parent prop access =>
        have hG2 : (goodExpr parent && goodExpr prop) = true := hG
        have hPar := Bool.and_elim_left hG2
        have hProp := Bool.and_elim_right hG2
        have hP := ihE ctx parent hEnv hPar
        cases access with
        | Static =>
          cases prop with
          | IdentExpr key =>
            cases hres : resolveExpr f ctx parent with
            | ok t =>
              rw [hres] at hP
              have hPt : goodTarget t = true := hP
              cases t with
              | Data d =>
                cases d <;> (rw [exprStepAttrStaticIdent, hres]; rfl)
              | Value v => rw [exprStepAttrStaticIdent, hres]; rfl
              | Entry entry =>
                cases entry with
                | Comment t2 => rw [exprStepAttrStaticIdent, hres]; rfl
                | Macro a b c => rw [exprStepAttrStaticIdent, hres]; rfl
                | Entity a b c attrs =>
                  have hPE : (goodValue b && goodAttrs attrs) = true := hPt
                  rw [exprStepAttrStaticIdent, hres]
                  show targetSafe (match findAttr attrs key with
                    | some value => resolveValue f ctx value
                    | none => Res.err ResolveError.MissingAttr) = true
                  cases hfa : findAttr attrs key with
                  | some v =>
                    exact ihV ctx v hEnv
                      (findAttr_good attrs key v (Bool.and_elim_right hPE) hfa)
                  | none => rfl
            | err e2 => rw [exprStepAttrStaticIdent, hres]; rfl
            | aborted => rw [hres] at hP; cases hP
            | diverge => rw [exprStepAttrStaticIdent, hres]; rfl
          | ValExpr v => rfl
          | NumExpr n => rfl
          | BinExpr a b c => rfl
          | UnExpr a b => rfl
          | VarExpr a => rfl
          | CondExpr a b c => rfl
          | CallExpr a b => rfl
          | PropExpr a b c => rfl
          | AttrExpr a b c => rfl
          | OtherExpr a => rfl
        | Computed =>
          have hD := ihDE ctx prop hEnv hProp
          cases hresK : resolveDataExpr f ctx prop with
          | ok d =>
            cases d with
            | Str key =>
              rw [exprStepAttrComputedStr f ctx parent prop key hresK]
              cases hres : resolveExpr f ctx parent with
              | ok t =>
                rw [hres] at hP
                have hPt : goodTarget t = true := hP
                cases t with
                | Data d2 => cases d2 <;> rfl
                | Value v => rfl
                | Entry entry =>
                  cases entry with
                  | Comment t2 => rfl
                  | Macro a b c => rfl
                  | Entity a b c attrs =>
                    have hPE : (goodValue b && goodAttrs attrs) = true := hPt
                    show targetSafe (match findAttr attrs key with
                      | some value => resolveValue f ctx value
                      | none => Res.err ResolveError.MissingAttr) = true
                    cases hfa : findAttr attrs key with
                    | some v =>
                      exact ihV ctx v hEnv
                        (findAttr_good attrs key v (Bool.and_elim_right hPE) hfa)
                    | none => rfl
              | err e2 => rfl
              | aborted => rw [hres] at hP; cases hP
              | diverge => rfl
            | Null => rw [exprStepAttrComputed, hresK]; rfl
            | Bool b => rw [exprStepAttrComputed, hresK]; rfl
            | Num n => rw [exprStepAttrComputed, hresK]; rfl
            | Map m => rw [exprStepAttrComputed, hresK]; rfl
          | err e2 => rw [exprStepAttrComputed, hresK]; rfl
          | aborted => rw [hresK] at hD; cases hD
          | diverge => rw [exprStepAttrComputed, hresK]; rfl
      | OtherExpr tag => simp [goodExpr] at hG
    · -- resolveArgs
      intro ctx ns args acc hEnv hPns hAs
      cases ns with
      | nil => rw [argsStepNilNames]; rfl
      | cons n rest =>
        cases args with
        | nil => rw [argsStepNilArgs]; rfl
        | cons a arest =>
          obtain ⟨name, rfl, hPrest⟩ := goodParams_cons n rest hPns
          rw [argsStepVar]
          have hAs2 : (goodExpr a && goodExprList arest) = true := hAs
          have hA1 := Bool.and_elim_left hAs2
          have hArest := Bool.and_elim_right hAs2
          have hD := ihDE ctx a hEnv hA1
          cases hres : resolveDataExpr f ctx a with
          | ok val => exact ihA ctx rest arest (ainsert acc name val) hEnv hPrest hArest
          | err e2 => rfl
          | aborted => rw [hres] at hD; cases hD
          | diverge => rfl
    · -- resolveTarget
      intro ctx t hEnv hT
      cases t with
      | Data d => rfl
      | Entry e =>
        cases e with
        | Comment t2 => rfl
        | Macro a b c => rfl
        | Entity a b c d =>
          have hT2 : (goodValue b && goodAttrs d) = true := hT
          exact Bool.and_elim_left hT2
      | Value v =>
        rw [targetStepValue]
        exact ihV ctx v hEnv hT
    · -- resolveDataTarget
      intro ctx t hEnv hT
      rw [dataTargetStep]
      have hS := ihT ctx t hEnv hT
      cases hres : resolveTarget f ctx t with
      | ok t2 =>
        rw [hres] at hS
        have hG2 : goodTarget t2 = true := hS
        cases t2 with
        | Data d => rfl
        | Entry e2 => exact ihDT ctx (.Entry e2) hEnv hG2
        | Value v => exact ihDT ctx (.Value v) hEnv hG2
      | err e2 => rfl
      | aborted => rw [hres] at hS; cases hS
      | diverge => rfl
    · -- resolveDataExpr
      intro ctx e hEnv hG
      rw [dataExprStep]
      have hS := ihE ctx e hEnv hG
      cases hres : resolveExpr f ctx e with
      | ok t2 =>
        rw [hres] at hS
        have hG2 : goodTarget t2 = true := hS
        cases t2 with
        | Data d => rfl
        | Entry e2 => exact ihDT ctx (.Entry e2) hEnv hG2
        | Value v => exact ihDT ctx (.Value v) hEnv hG2
      | err e2 => rfl
      | aborted => rw [hres] at hS; cases hS
      | diverge => rfl

/-- C10: single-step resolution aborts (models a Rust panic) on a call whose
callee is not an identifier reference, on a matched macro whose parameter
list holds a non-variable expression, and on an expression variant outside
the implemented set; when those shapes are absent from the expression and
from every entry of the environment, no resolve call aborts, at any fuel
(nontermination, modelled as fuel exhaustion, is a separate outcome). -/
theorem resolver_panic_safety :
    (resolveExpr 1 (ResolveContext.new [] .Null) (.CallExpr (.NumExpr 1) []) = .aborted) ∧
    (resolveExpr 3 (ResolveContext.new [("m", .Macro "m" [.NumExpr 0] (.NumExpr 1))] .Null)
      (.CallExpr (.IdentExpr "m") [.NumExpr 7]) = .aborted) ∧
    (resolveExpr 1 (ResolveContext.new [] .Null) (.OtherExpr "unhandled") = .aborted) ∧
    (∀ (fuel : Nat) (ctx : ResolveContext) (e : Expr), goodEnv ctx.env = true →
      goodExpr e = true → notAborted (resolveExpr fuel ctx e) = true) ∧
    (∀ (fuel : Nat) (ctx : ResolveContext) (e : Expr), goodEnv ctx.env = true →
      goodExpr e = true → notAborted (resolveDataExpr fuel ctx e) = true) ∧
    (∀ (fuel : Nat) (ctx : ResolveContext) (v : Value), goodEnv ctx.env = true →
      goodValue v = true → notAborted (resolveValue fuel ctx v) = true) := by
  refine ⟨rfl, rfl, rfl, ?_, ?_, ?_⟩
  · intro fuel ctx e hEnv hG
    exact targetSafe_notAborted _ ((noPanicAll fuel).2.2.1 ctx e hEnv hG)
  · intro fuel ctx e hEnv hG
    exact (noPanicAll fuel).2.2.2.2.2.2 ctx e hEnv hG
  · intro fuel ctx v hEnv hV
    exact targetSafe_notAborted _ ((noPanicAll fuel).1 ctx v hEnv hV)

/-- C10 witness: a well-formed environment and expression resolve without a
panic outcome. -/
theorem resolver_panic_safety_witness :
    notAborted (resolveExpr 5 (ResolveContext.new [("hi", .Entity "hi" (.Str "x") [] [])] .Null)
      (.IdentExpr "hi")) = true :=
  resolver_panic_safety.2.2.2.1 5
    (ResolveContext.new [("hi", .Entity "hi" (.Str "x") [] [])] .Null)
    (.IdentExpr "hi") rfl rfl

end L20n
